import Mathlib

/-!
Verification of the particle-usb host library core: the DFU client
(`src/dfu.js`, given as `src/unnamed/part_000`) and the request engine
(`src/device-base.js`, given as `src/unnamed/part_001`).

The development shallowly embeds the source as executable Lean functions.
The DFU client is modelled as a function threading a script of device
replies and accumulating the log of control transfers it issues; the
request engine is modelled as a labelled transition system whose inputs
are the caller actions, timer firings and device replies, and whose
outputs are the USB transfers and caller-visible completions.
-/

set_option maxRecDepth 4000

/- ================================================================
   Part I. DFU client (src/unnamed/part_000)
   ================================================================ -/

/-- `DfuDeviceStatus` from the source: the 16 DFU 1.1 status codes
(values 0x00 to 0x0F in declaration order). -/
inductive DfuDeviceStatus
  | OK
  | errTARGET
  | errFILE
  | errWRITE
  | errERASE
  | errCHECK_ERASED
  | errPROG
  | errVERIFY
  | errADDRESS
  | errNOTDONE
  | errFIRMWARE
  | errVENDOR
  | errUSBR
  | errPOR
  | errUNKNOWN
  | errSTALLEDPKT
deriving DecidableEq, Repr

/-- `DfuDeviceState` from the source: the 11 DFU 1.1 states
(values 0 to 10 in declaration order). -/
inductive DfuDeviceState
  | appIDLE
  | appDETACH
  | dfuIDLE
  | dfuDNLOAD_SYNC
  | dfuDNBUSY
  | dfuDNLOAD_IDLE
  | dfuMANIFEST_SYNC
  | dfuMANIFEST
  | dfuMANIFEST_WAIT_RESET
  | dfuUPLOAD_IDLE
  | dfuERROR
deriving DecidableEq, Repr

/-- The parsed result of a successful `DFU_GETSTATUS` transfer, as returned
by `Dfu._getStatus` after mapping the raw bytes through `DfuDeviceStatusMap`
and `DfuDeviceStateMap` (the 24-bit poll timeout is irrelevant to the claims
and omitted). -/
structure DfuStatusResult where
  status : DfuDeviceStatus
  state : DfuDeviceState
deriving DecidableEq, Repr

/-- The distinct failures the DFU client can raise. `invalidState` is
`DfuError("Invalid state")` from `_goIntoDfuIdleOrDfuDnloadIdle`;
`invalidDfuState` is `DfuError("Invalid DFU state")` from `leave`;
`unknownDnload` is `DfuError("Unknown DFU_DNLOAD command")`;
`transferFailed` stands for a failed USB transfer or an unparseable
`DFU_GETSTATUS` reply (both throw out of the helper). -/
inductive DfuFailure
  | invalidState
  | invalidDfuState
  | unknownDnload
  | transferFailed
deriving DecidableEq, Repr

/-- A control transfer issued by the DFU client, identified by its
`bRequest` (plus the payload parameters for `DFU_DNLOAD`). -/
inductive DfuTransfer
  | getStatusReq
  | clrStatusReq
  | dnloadReq (blockNum : Nat) (dataLen : Nat)
deriving DecidableEq, Repr

/-- The device side of a DFU interaction: the replies the device will give,
consumed in order. `gets` answers `DFU_GETSTATUS` transfers (`none` = the
transfer failed or its reply was unparseable); `clrs` and `dnls` record
whether each successive `DFU_CLRSTATUS` / `DFU_DNLOAD` OUT transfer
succeeds. -/
structure DfuScript where
  gets : List (Option DfuStatusResult)
  clrs : List Bool
  dnls : List Bool
deriving DecidableEq, Repr

/-- The running state of a DFU interaction: the remaining script and the
log of control transfers issued so far. -/
structure DfuRun where
  script : DfuScript
  log : List DfuTransfer
deriving DecidableEq, Repr

/-- Embeds `Dfu._getStatus`: issue the `DFU_GETSTATUS` IN transfer and
parse the 6-byte reply; a missing or unparseable reply throws. -/
def dfuGetStatus (m : DfuRun) : DfuRun × Except DfuFailure DfuStatusResult :=
  match m.script.gets with
  | [] =>
    ({ m with log := m.log ++ [DfuTransfer.getStatusReq] }, Except.error DfuFailure.transferFailed)
  | g :: rest =>
    let m' : DfuRun :=
      { script := { m.script with gets := rest }, log := m.log ++ [DfuTransfer.getStatusReq] }
    match g with
    | none => (m', Except.error DfuFailure.transferFailed)
    | some r => (m', Except.ok r)

/-- Embeds `Dfu._clearStatus`: issue the `DFU_CLRSTATUS` OUT transfer. -/
def dfuClearStatus (m : DfuRun) : DfuRun × Except DfuFailure Unit :=
  match m.script.clrs with
  | [] =>
    ({ m with log := m.log ++ [DfuTransfer.clrStatusReq] }, Except.error DfuFailure.transferFailed)
  | ok :: rest =>
    let m' : DfuRun :=
      { script := { m.script with clrs := rest }, log := m.log ++ [DfuTransfer.clrStatusReq] }
    if ok then (m', Except.ok ()) else (m', Except.error DfuFailure.transferFailed)

/-- Embeds `Dfu._sendDnloadRequest` in the command-less form used by
`leave`: a request with no DfuSE command and a truthy (non-zero) block
number performs the `DFU_DNLOAD` OUT transfer; otherwise the method throws
`Unknown DFU_DNLOAD command`. -/
def dfuSendDnloadRequest (m : DfuRun) (blockNum : Nat) (dataLen : Nat) :
    DfuRun × Except DfuFailure Unit :=
  if blockNum ≠ 0 then
    match m.script.dnls with
    | [] =>
      ({ m with log := m.log ++ [DfuTransfer.dnloadReq blockNum dataLen] },
       Except.error DfuFailure.transferFailed)
    | ok :: rest =>
      let m' : DfuRun :=
        { script := { m.script with dnls := rest },
          log := m.log ++ [DfuTransfer.dnloadReq blockNum dataLen] }
      if ok then (m', Except.ok ()) else (m', Except.error DfuFailure.transferFailed)
  else (m, Except.error DfuFailure.unknownDnload)

/-- The `try` block of `_goIntoDfuIdleOrDfuDnloadIdle`: one `GETSTATUS`,
a `CLRSTATUS` if the read state is `dfuERROR`, and (testing the same
first read again) a further `CLRSTATUS` if that read is neither `dfuIDLE`
nor `dfuDNLOAD_IDLE`. -/
def dfuGoIntoIdleTryBlock (m : DfuRun) : DfuRun × Except DfuFailure Unit :=
  match dfuGetStatus m with
  | (m, Except.error e) => (m, Except.error e)
  | (m, Except.ok st) =>
    let (m, c1) :=
      if st.state = DfuDeviceState.dfuERROR then dfuClearStatus m else (m, Except.ok ())
    match c1 with
    | Except.error e => (m, Except.error e)
    | Except.ok _ =>
      if st.state ≠ DfuDeviceState.dfuIDLE ∧ st.state ≠ DfuDeviceState.dfuDNLOAD_IDLE then
        dfuClearStatus m
      else (m, Except.ok ())

/-- Embeds `Dfu._goIntoDfuIdleOrDfuDnloadIdle`: run the `try` block; on any
failure inside it, issue a recovery `CLRSTATUS` (whose own failure
propagates); then confirm with a final `GETSTATUS` that the device is in
`dfuIDLE` or `dfuDNLOAD_IDLE`, else throw `DfuError("Invalid state")`. -/
def goIntoDfuIdleOrDfuDnloadIdle (m : DfuRun) : DfuRun × Except DfuFailure Unit :=
  let (m1, tryRes) := dfuGoIntoIdleTryBlock m
  let (m2, rec) :=
    match tryRes with
    | Except.ok _ => (m1, Except.ok ())
    | Except.error _ => dfuClearStatus m1
  match rec with
  | Except.error e => (m2, Except.error e)
  | Except.ok _ =>
    match dfuGetStatus m2 with
    | (m3, Except.error e) => (m3, Except.error e)
    | (m3, Except.ok st) =>
      if st.state ≠ DfuDeviceState.dfuIDLE ∧ st.state ≠ DfuDeviceState.dfuDNLOAD_IDLE then
        (m3, Except.error DfuFailure.invalidState)
      else (m3, Except.ok ())

/-- Embeds `Dfu.leave`: normalize to an idle state, issue the zero-length
`DFU_DNLOAD` with dummy block number 1, then read the final status; the
result is rejected with `DfuError("Invalid DFU state")` exactly when the
source's condition `state !== dfuMANIFEST && status === OK &&
state !== dfuDNLOAD_IDLE` holds. -/
def dfuLeave (m : DfuRun) : DfuRun × Except DfuFailure Unit :=
  match goIntoDfuIdleOrDfuDnloadIdle m with
  | (m, Except.error e) => (m, Except.error e)
  | (m, Except.ok _) =>
    match dfuSendDnloadRequest m 1 0 with
    | (m, Except.error e) => (m, Except.error e)
    | (m, Except.ok _) =>
      match dfuGetStatus m with
      | (m, Except.error e) => (m, Except.error e)
      | (m, Except.ok st) =>
        if st.state ≠ DfuDeviceState.dfuMANIFEST then
          if st.status = DfuDeviceStatus.OK ∧ st.state ≠ DfuDeviceState.dfuDNLOAD_IDLE then
            (m, Except.error DfuFailure.invalidDfuState)
          else (m, Except.ok ())
        else (m, Except.ok ())

/-- The acceptance predicate of the final `GETSTATUS` check in `dfuLeave`,
as the source computes it. -/
def dfuLeaveAccepts (st : DfuStatusResult) : Bool :=
  if st.state ≠ DfuDeviceState.dfuMANIFEST then
    if st.status = DfuDeviceStatus.OK ∧ st.state ≠ DfuDeviceState.dfuDNLOAD_IDLE then
      false
    else true
  else true

/- ================================================================
   Part II. Polling policy (src/unnamed/part_001, lines 124-138)
   ================================================================ -/

/-- `DEFAULT_CHECK_INTERVALS` from the source: default backoff intervals
for the CHECK service request, in milliseconds. -/
def DEFAULT_CHECK_INTERVALS : List Nat := [50, 50, 100, 100, 250, 250, 500, 500, 1000]

/-- `checkInterval` from the source: index into the interval table,
saturating at its last entry. -/
def checkInterval (attempts : Nat) (intervals : List Nat) : Nat :=
  if attempts < intervals.length then intervals.getD attempts 0
  else intervals.getD (intervals.length - 1) 0

/-- `PollingPolicy.DEFAULT` from the source. -/
def PollingPolicyDEFAULT (n : Nat) : Nat := checkInterval n DEFAULT_CHECK_INTERVALS

/- ================================================================
   Part III. Request engine (src/unnamed/part_001, DeviceBase)

   The engine is embedded as a labelled transition system. A step is an
   external event — a caller action (`open`, `close`, `sendRequest`), a
   timer firing, or the completion of the in-flight USB transfer with the
   device's reply — followed by the synchronous JavaScript it triggers,
   including the re-entry into `_process`. Outputs are the USB transfers
   issued, the events emitted and the caller-visible settlements.
   Wall-clock durations are abstracted: an armed timer may fire at any
   step, which over-approximates every real schedule.
   ================================================================ -/

namespace DeviceBase

/-- Modelled from the spec: `MAX_REQUEST_TYPE` is defined in
`src/usb-protocol.js`, which is not among the provided sources; §6 of the
spec fixes it at 65535. -/
def MAX_REQUEST_TYPE : Int := 65535

/-- Modelled from the spec: `MAX_PAYLOAD_SIZE` is defined in
`src/usb-protocol.js`, which is not among the provided sources; §3 and §6
of the spec fix it at 65535. -/
def MAX_PAYLOAD_SIZE : Nat := 65535

/-- Modelled from the spec: the service-reply status codes of
`src/usb-protocol.js` (not among the provided sources). The engine only
compares them for equality, so they are kept symbolic: OK, PENDING, BUSY,
NO_MEMORY, NOT_FOUND, and a catch-all for any other code. -/
inductive ProtoStatus
  | ok
  | pending
  | busy
  | noMemory
  | notFound
  | other (code : Nat)
deriving DecidableEq, Repr

/-- A parsed service reply (`proto.parseReply`): `status`, the
device-assigned protocol `id`, the reply payload `size` and the
caller-visible `result` code. -/
structure ServiceReply where
  status : ProtoStatus
  id : Nat
  size : Nat
  result : Int
deriving DecidableEq, Repr

/-- The error variants of `src/error.js` that the engine raises, kept as
disjoint kinds (the spec's §7 table). -/
inductive ErrKind
  | stateErr (msg : String)
  | timeoutErr
  | memoryErr
  | protocolErr (msg : String)
  | deviceErr (msg : String)
  | usbErr
deriving DecidableEq, Repr

/-- `DeviceState` from the source (`OPEN` is spelt `opened` because `open`
is a Lean keyword). -/
inductive DevState
  | closed
  | opening
  | opened
  | closing
deriving DecidableEq, Repr

/-- The static device-info record attached to the handle: the device type
tag and the DFU-mode flag of the matched USB table entry. -/
structure DeviceInfo where
  dtype : String
  dfu : Bool
deriving DecidableEq, Repr

/-- A logical request object (the `req` record built in `sendRequest`).
`dataLen` is the byte length of the payload, `none` standing for a `null`
payload. `reqTimer` records whether the request timer is armed. The
polling-policy closure is not represented: timer delays are abstracted
into nondeterministic firing, so only `checkCount` (the argument fed to
the policy) is kept. -/
structure Req where
  rtype : Int
  dataLen : Option Nat
  dataIsStr : Bool
  dataSent : Bool
  protoId : Option Nat
  checkCount : Nat
  reqTimer : Bool
  done : Bool
deriving DecidableEq, Repr

/-- The USB control transfers the engine issues, tagged with the request
they serve. `reset rid p` carries the protocol id `p` being released;
`resetAll` is the global reset (`proto.resetRequest()` with no id);
`version` is the `SYSTEM_VERSION` vendor request issued while opening. -/
inductive Transfer
  | init (rid : Nat) (ty : Int) (len : Nat)
  | send (rid : Nat) (len : Nat)
  | check (rid : Nat) (protoId : Nat)
  | recv (rid : Nat) (size : Nat)
  | reset (rid : Nat) (protoId : Nat)
  | resetAll
  | version
deriving DecidableEq, Repr

/-- How a caller-visible request settles: resolution with the reply's
`result` code, or rejection with an error kind. -/
inductive Outcome
  | okRep (result : Int)
  | errRep (e : ErrKind)
deriving DecidableEq, Repr

/-- Observable outputs of a step: a USB transfer, the settlement of a
submitted request (`completed`), the synchronous rejection thrown inside
`sendRequest`'s executor (`submitRejected`), the `open`/`closed` events,
and the settlement of the `open()`/`close()` promises. -/
inductive Output
  | xfer (t : Transfer)
  | completed (rid : Nat) (o : Outcome)
  | submitRejected (e : ErrKind)
  | openEvent
  | closedEvent
  | closeResolved
  | openResolved
  | openRejected
deriving DecidableEq, Repr

/-- The operation whose USB transfer is in flight (`_busy == true`),
together with the continuation it will run. -/
inductive Inflight
  | resetAll
  | resetOne (rid : Nat)
  | init (rid : Nat)
  | initSend (rid : Nat)
  | check (rid : Nat)
  | checkSend (rid : Nat)
  | recv (rid : Nat) (result : Int)
deriving DecidableEq, Repr

/-- The completion of the in-flight transfer: a parsed service reply (IN
transfers through `_sendServiceRequest`), a successful data-stage
completion (OUT transfers and `RECV`), or a USB/parse failure. -/
inductive XferResult
  | rep (r : ServiceReply)
  | outOk
  | failed
deriving DecidableEq, Repr

/-- The mutable state of a `DeviceBase` handle. `heap` is the JavaScript
heap of all request objects ever created, keyed by internal id (queues
reference objects by identity in the source, so completed requests stay
reachable through the queues even after `_reqs.delete`); `reqsMap` is the
key set of the `_reqs` map in insertion order. `armedChecks` holds the
requests with a pending `_startCheckTimer` callback (the source never
stores this timer in `req.checkTimer`, so it always fires). `openOpts`
remembers the `concurrentRequests` option of the in-progress `open`. -/
structure Eng where
  info : DeviceInfo
  dstate : DevState
  heap : List (Nat × Req)
  reqsMap : List Nat
  reqQueue : List Nat
  checkQueue : List Nat
  resetQueue : List Nat
  armedChecks : List Nat
  activeReqs : Int
  maxActiveReqs : Option Int
  lastReqId : Nat
  openOpts : Option Int
  closeTimer : Bool
  wantClose : Bool
  resetAllReqs : Bool
  busy : Bool
  inflight : Option Inflight
  fwVer : Option String
  devId : Option String
deriving DecidableEq, Repr

/-- `this._id.toLowerCase()` applied to the serial-number descriptor. -/
def jsToLowerCase (s : String) : String := String.mk (s.data.map Char.toLower)

/-- Look a request object up in the heap. -/
def heapGet (h : List (Nat × Req)) (rid : Nat) : Option Req := h.lookup rid

/-- Overwrite the request object stored under `rid`. -/
def heapSet (h : List (Nat × Req)) (rid : Nat) (r : Req) : List (Nat × Req) :=
  h.map fun p => if p.1 = rid then (rid, r) else p

/-- The dequeue loop shared by `_checkNextRequest` and `_sendNextRequest`:
shift entries off the queue until one that is not `done` is found,
discarding the skipped (cancelled) ones. -/
def dequeueNotDone (h : List (Nat × Req)) : List Nat → List Nat × Option Nat
  | [] => ([], none)
  | rid :: rest =>
    match heapGet h rid with
    | some r => if r.done then dequeueNotDone h rest else (rest, some rid)
    | none => dequeueNotDone h rest

/-- Embeds `_clearRequest`: cancel the request's timers, delete it from
the `_reqs` map and set its `done` flag. -/
def clearRequest (s : Eng) (rid : Nat) : Eng :=
  match heapGet s.heap rid with
  | none => s
  | some r =>
    { s with heap := heapSet s.heap rid { r with reqTimer := false, done := true },
             reqsMap := s.reqsMap.filter (fun i => i ≠ rid) }

/-- Embeds `_rejectRequest`: a no-op on a `done` request; otherwise clear
the request, push it onto the reset queue when it holds a truthy (non-zero)
protocol id, and invoke the caller's rejecter. -/
def rejectRequest (s : Eng) (rid : Nat) (e : ErrKind) : Eng × List Output :=
  match heapGet s.heap rid with
  | none => (s, [])
  | some r =>
    if r.done then (s, [])
    else
      let s1 := clearRequest s rid
      let s2 :=
        match r.protoId with
        | some p => if p ≠ 0 then { s1 with resetQueue := s1.resetQueue ++ [rid] } else s1
        | none => s1
      (s2, [Output.completed rid (Outcome.errRep e)])

/-- Embeds `_resolveRequest`: a no-op on a `done` request; otherwise clear
the request, decrement `_activeReqs` and invoke the caller's resolver. If
the decrement drives the counter negative, the source's
`assert(--this._activeReqs >= 0)` throws before `req.resolve` runs (the
error is then swallowed by the surrounding catch since the request is
already `done`), so no settlement is delivered in that case. -/
def resolveRequest (s : Eng) (rid : Nat) (result : Int) : Eng × List Output :=
  match heapGet s.heap rid with
  | none => (s, [])
  | some r =>
    if r.done then (s, [])
    else
      let s1 := clearRequest s rid
      let s2 := { s1 with activeReqs := s1.activeReqs - 1 }
      if s2.activeReqs < 0 then (s2, [])
      else (s2, [Output.completed rid (Outcome.okRep result)])

/-- Embeds `_rejectAllRequests`: reject every request in the `_reqs` map,
empty all three queues, and set the reset-all flag when active requests
remain. -/
def rejectAllRequests (s : Eng) (e : ErrKind) : Eng × List Output :=
  let (s1, outs) :=
    s.reqsMap.foldl
      (fun acc rid =>
        let (s', os) := rejectRequest acc.1 rid e
        (s', acc.2 ++ os))
      (s, ([] : List Output))
  let s2 := { s1 with reqQueue := [], checkQueue := [], resetQueue := [] }
  let s3 := if s2.activeReqs > 0 then { s2 with resetAllReqs := true } else s2
  (s3, outs)

/-- Embeds `_startCheckTimer`: bump `checkCount` and schedule a callback
that will push the request onto the check queue (the delay computed from
the polling policy is abstracted into nondeterministic firing). -/
def startCheckTimer (s : Eng) (rid : Nat) : Eng :=
  match heapGet s.heap rid with
  | none => s
  | some r =>
    { s with heap := heapSet s.heap rid { r with checkCount := r.checkCount + 1 },
             armedChecks := s.armedChecks ++ [rid] }

/-- Embeds `_close` together with the continuation of `this._dev.close()`:
reject everything still in the `_reqs` map, zero the counters, cancel the
close timer, close the USB device and reset the handle to `CLOSED`,
emitting `closed` exactly when the state was `CLOSING`. -/
def closeInternal (s : Eng) (e : Option ErrKind) : Eng × List Output :=
  let (s1, outs) :=
    if s.reqsMap.isEmpty then (s, ([] : List Output))
    else rejectAllRequests s (e.getD (ErrKind.stateErr "Device has been closed"))
  let s2 := { s1 with activeReqs := 0, resetAllReqs := false, closeTimer := false }
  let emitClosed := s2.dstate = DevState.closing
  let s3 := { s2 with dstate := DevState.closed, wantClose := false, maxActiveReqs := none,
                      fwVer := none, devId := none }
  (s3, outs ++ (if emitClosed then [Output.closedEvent] else []))

/-- The tail of `_process`: invoke `_close` when the handle is `CLOSING`
with no active requests left. -/
def closeCheck (s : Eng) : Eng × List Output :=
  if s.dstate = DevState.closing ∧ s.activeReqs = 0 then closeInternal s none else (s, [])

/-- Embeds `_process`: bail out when closed, opening or busy; latch
`CLOSING` when a close is wanted; then try, in strict priority order, the
global reset, a per-request reset, a CHECK, an INIT, and finally the close
check. Starting an operation marks the engine busy, records the in-flight
continuation and issues the transfer. The INIT gate skips sending while
`_maxActiveReqs` is truthy (non-null, non-zero) and `_activeReqs` has
reached it. -/
def process (s : Eng) : Eng × List Output :=
  if s.dstate = DevState.closed ∨ s.dstate = DevState.opening ∨ s.busy then (s, [])
  else
    let s := if s.wantClose ∧ s.dstate ≠ DevState.closing
             then { s with dstate := DevState.closing } else s
    if s.resetAllReqs then
      ({ s with busy := true, inflight := some Inflight.resetAll },
       [Output.xfer Transfer.resetAll])
    else
      match s.resetQueue with
      | rid :: rest =>
        let p := ((heapGet s.heap rid).bind Req.protoId).getD 0
        ({ s with resetQueue := rest, busy := true, inflight := some (Inflight.resetOne rid) },
         [Output.xfer (Transfer.reset rid p)])
      | [] =>
        match dequeueNotDone s.heap s.checkQueue with
        | (cq, some rid) =>
          let p := ((heapGet s.heap rid).bind Req.protoId).getD 0
          ({ s with checkQueue := cq, busy := true, inflight := some (Inflight.check rid) },
           [Output.xfer (Transfer.check rid p)])
        | (cq, none) =>
          let s := { s with checkQueue := cq }
          let gateBlocked : Bool :=
            match s.maxActiveReqs with
            | some m => decide (m ≠ 0 ∧ s.activeReqs ≥ m)
            | none => false
          if gateBlocked then closeCheck s
          else
            match dequeueNotDone s.heap s.reqQueue with
            | (rq, some rid) =>
              match heapGet s.heap rid with
              | some r =>
                ({ s with reqQueue := rq, busy := true, inflight := some (Inflight.init rid) },
                 [Output.xfer (Transfer.init rid r.rtype (r.dataLen.getD 0))])
              | none => closeCheck { s with reqQueue := rq }
            | (rq, none) => closeCheck { s with reqQueue := rq }

/-- Run `_process` after an event, concatenating the outputs. -/
def andProcess (s : Eng) (outs : List Output) : Eng × List Output :=
  let (s', os) := process s
  (s', outs ++ os)

/-- The continuation of the INIT service request in `_sendNextRequest`:
on OK or PENDING assign the protocol id and increment `_activeReqs`; on OK
send the payload (or mark it sent) and arm polling; on PENDING with no
payload fail with `ProtocolError`; on BUSY learn
`_maxActiveReqs := _activeReqs` and unshift the request back onto the
queue; on NO_MEMORY fail with `MemoryError`; otherwise `ProtocolError`.
The continuation runs on the captured request object even if the request
was rejected while the transfer was in flight, exactly as the source
does. -/
def initCont (s0 : Eng) (rid : Nat) (rep : ServiceReply) : Eng × List Output :=
  match heapGet s0.heap rid with
  | none => andProcess s0 []
  | some r0 =>
    let assignId := rep.status = ProtoStatus.ok ∨ rep.status = ProtoStatus.pending
    let r := if assignId then { r0 with protoId := some rep.id } else r0
    let s :=
      if assignId then { s0 with heap := heapSet s0.heap rid r, activeReqs := s0.activeReqs + 1 }
      else s0
    match rep.status with
    | ProtoStatus.ok =>
      if r.dataLen.getD 0 > 0 then
        ({ s with busy := true, inflight := some (Inflight.initSend rid) },
         [Output.xfer (Transfer.send rid (r.dataLen.getD 0))])
      else
        let s := { s with heap := heapSet s.heap rid { r with dataSent := true } }
        andProcess (startCheckTimer s rid) []
    | ProtoStatus.pending =>
      if r.dataLen = none ∨ r.dataLen = some 0 then
        let (s, os) := rejectRequest s rid (ErrKind.protocolErr "Unexpected status code")
        andProcess s os
      else andProcess (startCheckTimer s rid) []
    | ProtoStatus.busy =>
      let s := { s with maxActiveReqs := some s.activeReqs, reqQueue := rid :: s.reqQueue }
      andProcess s []
    | ProtoStatus.noMemory =>
      let (s, os) := rejectRequest s rid ErrKind.memoryErr
      andProcess s os
    | _ =>
      let (s, os) := rejectRequest s rid (ErrKind.protocolErr "Unknown status code")
      andProcess s os

/-- The continuation of the CHECK service request in `_checkNextRequest`:
on OK, either finish the request (receiving the reply payload first when
`size` is non-zero) or — when the payload had not been sent yet — send it;
on PENDING re-arm polling; NO_MEMORY, NOT_FOUND and unknown codes fail the
request. -/
def checkCont (s0 : Eng) (rid : Nat) (rep : ServiceReply) : Eng × List Output :=
  match heapGet s0.heap rid with
  | none => andProcess s0 []
  | some r =>
    match rep.status with
    | ProtoStatus.ok =>
      if r.dataSent then
        if rep.size ≠ 0 then
          ({ s0 with busy := true, inflight := some (Inflight.recv rid rep.result) },
           [Output.xfer (Transfer.recv rid rep.size)])
        else
          let (s, os) := resolveRequest s0 rid rep.result
          andProcess s os
      else
        ({ s0 with busy := true, inflight := some (Inflight.checkSend rid) },
         [Output.xfer (Transfer.send rid (r.dataLen.getD 0))])
    | ProtoStatus.pending => andProcess (startCheckTimer s0 rid) []
    | ProtoStatus.noMemory =>
      let (s, os) := rejectRequest s0 rid ErrKind.memoryErr
      andProcess s os
    | ProtoStatus.notFound =>
      let (s, os) := rejectRequest s0 rid (ErrKind.deviceErr "Request was cancelled")
      andProcess s os
    | _ =>
      let (s, os) := rejectRequest s0 rid (ErrKind.protocolErr "Unknown status code")
      andProcess s os

/-- Completion of the in-flight USB transfer: clear `_busy`, run the
operation's continuation (resets ignore their result; INIT/CHECK parse the
reply or reject on failure; SEND marks the payload sent and arms polling;
RECV resolves the request), then re-enter `_process`. -/
def finishStep (s : Eng) (res : XferResult) : Eng × List Output :=
  match s.inflight with
  | none => (s, [])
  | some fl =>
    let s0 := { s with busy := false, inflight := none }
    match fl with
    | Inflight.resetAll =>
      andProcess { s0 with resetAllReqs := false, activeReqs := 0 } []
    | Inflight.resetOne _ =>
      andProcess { s0 with activeReqs := s0.activeReqs - 1 } []
    | Inflight.init rid =>
      match res with
      | XferResult.rep rep => initCont s0 rid rep
      | _ =>
        let (s, os) := rejectRequest s0 rid ErrKind.usbErr
        andProcess s os
    | Inflight.initSend rid =>
      match res with
      | XferResult.failed =>
        let (s, os) := rejectRequest s0 rid ErrKind.usbErr
        andProcess s os
      | _ =>
        match heapGet s0.heap rid with
        | some r =>
          let s := { s0 with heap := heapSet s0.heap rid { r with dataSent := true } }
          andProcess (startCheckTimer s rid) []
        | none => andProcess s0 []
    | Inflight.check rid =>
      match res with
      | XferResult.rep rep => checkCont s0 rid rep
      | _ =>
        let (s, os) := rejectRequest s0 rid ErrKind.usbErr
        andProcess s os
    | Inflight.checkSend rid =>
      match res with
      | XferResult.failed =>
        let (s, os) := rejectRequest s0 rid ErrKind.usbErr
        andProcess s os
      | _ =>
        match heapGet s0.heap rid with
        | some r =>
          let s :=
            { s0 with heap := heapSet s0.heap rid { r with dataSent := true, checkCount := 0 } }
          andProcess (startCheckTimer s rid) []
        | none => andProcess s0 []
    | Inflight.recv rid result =>
      match res with
      | XferResult.failed =>
        let (s, os) := rejectRequest s0 rid ErrKind.usbErr
        andProcess s os
      | _ =>
        let (s, os) := resolveRequest s0 rid result
        andProcess s os

/-- The external events driving a handle. `openSerial`, `openVersion`,
`openDone` and `openFail` are the stages of the `open()` promise chain;
`finish` delivers the completion of the in-flight USB transfer;
`reqTimerFire` and `checkTimerFire` are the timer callbacks (firable
whenever the corresponding timer is armed); `submit` is `sendRequest`
(with `timeoutArmed` the truthiness of `options.timeout`, so a timeout of
0 arms no timer, as in the source). -/
inductive Input
  | openCall (concurrentRequests : Option Int)
  | openSerial (serial : String)
  | openVersion (ver : Option String)
  | openDone
  | openFail
  | closeCall (processPending : Bool) (timeoutArmed : Bool)
  | closeTimerFire
  | submit (ty : Int) (dataLen : Option Nat) (dataIsStr : Bool) (timeoutArmed : Bool)
  | finish (res : XferResult)
  | reqTimerFire (rid : Nat)
  | checkTimerFire (rid : Nat)
deriving DecidableEq, Repr

/-- One step of the handle: the event plus all synchronous processing it
triggers in the source. -/
def step (s : Eng) (i : Input) : Eng × List Output :=
  match i with
  | Input.openCall copt =>
    if s.dstate ≠ DevState.closed then (s, [Output.openRejected])
    else ({ s with dstate := DevState.opening, openOpts := copt }, [])
  | Input.openSerial ser =>
    if s.dstate = DevState.opening then
      ({ s with devId := some (jsToLowerCase ser) }, [Output.xfer Transfer.version])
    else (s, [])
  | Input.openVersion v =>
    if s.dstate = DevState.opening then ({ s with fwVer := v }, []) else (s, [])
  | Input.openDone =>
    if s.dstate = DevState.opening then
      let s1 := { s with maxActiveReqs := s.openOpts, resetAllReqs := true,
                         dstate := DevState.opened }
      let (s2, outs) := process s1
      (s2, Output.openEvent :: (outs ++ [Output.openResolved]))
    else (s, [])
  | Input.openFail =>
    if s.dstate = DevState.opening then
      let (s1, outs) := closeInternal s (some ErrKind.usbErr)
      (s1, outs ++ [Output.openRejected])
    else (s, [])
  | Input.closeCall processPending timeoutArmed =>
    if s.dstate = DevState.closed then (s, [Output.closeResolved])
    else
      let (s1, outs) :=
        if ¬ processPending then
          let (sa, os) := rejectAllRequests s (ErrKind.stateErr "Device is being closed")
          ({ sa with closeTimer := false }, os)
        else if timeoutArmed ∧ ¬ s.wantClose then ({ s with closeTimer := true }, [])
        else (s, [])
      andProcess { s1 with wantClose := true } outs
  | Input.closeTimerFire =>
    if s.closeTimer then
      let (s1, os) := rejectAllRequests { s with closeTimer := false }
        (ErrKind.stateErr "Device is being closed")
      andProcess s1 os
    else (s, [])
  | Input.submit ty dataLen dataIsStr timeoutArmed =>
    if s.dstate = DevState.closed then
      (s, [Output.submitRejected (ErrKind.stateErr "Device is not open")])
    else if s.dstate = DevState.closing ∨ s.wantClose then
      (s, [Output.submitRejected (ErrKind.stateErr "Device is being closed")])
    else if ty < 0 ∨ ty > MAX_REQUEST_TYPE then
      (s, [Output.submitRejected (ErrKind.deviceErr "Invalid request type")])
    else if (match dataLen with
             | some n => decide (n > MAX_PAYLOAD_SIZE)
             | none => false) then
      (s, [Output.submitRejected (ErrKind.deviceErr "Request data is too large")])
    else
      let rid := s.lastReqId + 1
      let r : Req :=
        { rtype := ty, dataLen := dataLen, dataIsStr := dataIsStr, dataSent := false,
          protoId := none, checkCount := 0, reqTimer := timeoutArmed, done := false }
      andProcess
        { s with lastReqId := rid, heap := s.heap ++ [(rid, r)],
                 reqsMap := s.reqsMap ++ [rid], reqQueue := s.reqQueue ++ [rid] } []
  | Input.finish res => finishStep s res
  | Input.reqTimerFire rid =>
    match heapGet s.heap rid with
    | some r =>
      if r.reqTimer then
        let (s1, os) := rejectRequest s rid ErrKind.timeoutErr
        andProcess s1 os
      else (s, [])
    | none => (s, [])
  | Input.checkTimerFire rid =>
    if rid ∈ s.armedChecks then
      andProcess
        { s with armedChecks := s.armedChecks.erase rid, checkQueue := s.checkQueue ++ [rid] } []
    else (s, [])

/-- A freshly constructed handle (the `DeviceBase` constructor). -/
def mkDevice (info : DeviceInfo) : Eng :=
  { info := info, dstate := DevState.closed, heap := [], reqsMap := [], reqQueue := [],
    checkQueue := [], resetQueue := [], armedChecks := [], activeReqs := 0,
    maxActiveReqs := none, lastReqId := 0, openOpts := none, closeTimer := false,
    wantClose := false, resetAllReqs := false, busy := false, inflight := none,
    fwVer := none, devId := none }

/-- Run a sequence of events from a state, collecting all outputs. -/
def run (s : Eng) : List Input → Eng × List Output
  | [] => (s, [])
  | i :: is =>
    let (s1, os) := step s i
    let (s2, os2) := run s1 is
    (s2, os ++ os2)

/-- The states a handle can reach from construction. -/
inductive Reachable (info : DeviceInfo) : Eng → Prop
  | init : Reachable info (mkDevice info)
  | next {s : Eng} (i : Input) : Reachable info s → Reachable info (step s i).1

/-- The `id` getter: returns `this._id` in every state. -/
def idGetter (s : Eng) : Option String := s.devId

/-- The `firmwareVersion` getter: returns `this._fwVer` in every state. -/
def firmwareVersionGetter (s : Eng) : Option String := s.fwVer

/-- The `type` getter: returns `this._info.type` in every state; the value
is a string from the static device table and is never `null`. -/
def typeGetter (s : Eng) : Option String := some s.info.dtype

/-- The `isInDfuMode` getter: returns `this._info.dfu` in every state; the
value is a boolean and is never `null`. -/
def isInDfuModeGetter (s : Eng) : Option Bool := some s.info.dfu

/-- Fixture: a static device-info record for concrete runs. -/
def info0 : DeviceInfo := { dtype := "photon", dfu := false }

/-- Fixture: a complete successful `open()` interaction — USB open with
serial "AB", a failed firmware-version query, open completion, and the
device's acknowledgement of the open-time global RESET. -/
def openTrace : List Input :=
  [Input.openCall none, Input.openSerial "AB", Input.openVersion none, Input.openDone,
   Input.finish XferResult.outOk]

/-- Fixture: the open, idle handle reached by `openTrace`. -/
def sOpen : Eng := (run (mkDevice info0) openTrace).1

/-- Fixture: a request submitted with an armed timer, answered BUSY while
no request is active, then (after its automatic re-send) answered OK with
protocol id 7. -/
def c2Trace : List Input :=
  [Input.submit 40 none false true,
   Input.finish (XferResult.rep { status := ProtoStatus.busy, id := 0, size := 0, result := 0 }),
   Input.finish (XferResult.rep { status := ProtoStatus.ok, id := 7, size := 0, result := 0 })]

/-- Fixture: a payload-less request INIT'd with protocol id 7, polled once
after its check timer fires, and resolved by an OK CHECK reply with
result 5 and no reply payload. -/
def c3Trace : List Input :=
  [Input.submit 40 none false true,
   Input.finish (XferResult.rep { status := ProtoStatus.ok, id := 7, size := 0, result := 0 }),
   Input.checkTimerFire 1,
   Input.finish (XferResult.rep { status := ProtoStatus.ok, id := 7, size := 0, result := 5 })]

/-- Fixture: a request submitted with `timeout: 0`, which is falsy in the
source, so no request timer is armed. -/
def c5Trace : List Input := [Input.submit 40 none false false]

/-- Fixture: an open interaction where the caller caps concurrency at 3
via the `concurrentRequests` option. -/
def openCapTrace : List Input :=
  [Input.openCall (some 3), Input.openSerial "AB", Input.openVersion none, Input.openDone,
   Input.finish XferResult.outOk]

/-- Fixture: the open handle with a caller-set concurrency cap of 3. -/
def sOpenCap : Eng := (run (mkDevice info0) openCapTrace).1

/-- Fixture: one request completes INIT (protocol id 7, so one active
request), then a second request's INIT goes in flight. -/
def busyWitnessTrace : List Input :=
  openTrace ++
  [Input.submit 40 none false true,
   Input.finish (XferResult.rep { status := ProtoStatus.ok, id := 7, size := 0, result := 0 }),
   Input.submit 41 none false true]

/-- Fixture: the handle with one active request and an INIT in flight. -/
def sBusyInit : Eng := (run (mkDevice info0) busyWitnessTrace).1

/-- Is this output a RESET (per-slot or global) transfer? -/
def isResetOutput : Output → Bool
  | Output.xfer (Transfer.reset _ _) => true
  | Output.xfer Transfer.resetAll => true
  | _ => false

/-- Is this output a USB transfer issued on behalf of request `rid`? -/
def mentionsRid (rid : Nat) : Output → Bool
  | Output.xfer (Transfer.init r _ _) => decide (r = rid)
  | Output.xfer (Transfer.send r _) => decide (r = rid)
  | Output.xfer (Transfer.check r _) => decide (r = rid)
  | Output.xfer (Transfer.recv r _) => decide (r = rid)
  | Output.xfer (Transfer.reset r _) => decide (r = rid)
  | _ => false

/-- Count the caller-visible settlements delivered for request `rid`. -/
def completedCount (rid : Nat) (os : List Output) : Nat :=
  (os.filter fun o =>
    match o with
    | Output.completed r _ => decide (r = rid)
    | _ => false).length

/-- Does the in-flight operation (if any) serve request `rid`? -/
def inflightFor (rid : Nat) : Option Inflight → Bool
  | some (Inflight.resetOne r) => decide (r = rid)
  | some (Inflight.init r) => decide (r = rid)
  | some (Inflight.initSend r) => decide (r = rid)
  | some (Inflight.check r) => decide (r = rid)
  | some (Inflight.checkSend r) => decide (r = rid)
  | some (Inflight.recv r _) => decide (r = rid)
  | _ => false

/-- The request `rid` is recorded in the heap as completed (`done`). Once
this holds it holds forever: `done` is only ever set, never cleared, and
internal ids are never reused. -/
abbrev doneIn (s : Eng) (rid : Nat) : Prop :=
  ∃ r, heapGet s.heap rid = some r ∧ r.done = true

/-- The core state invariant of the engine, preserved by every step:
`_busy` mirrors the presence of an in-flight operation; the active-request
count respects a positive concurrency cap, strictly so while an INIT is in
flight (the send gate's guarantee); closed or opening handles are
quiescent with no cap and no active requests; and a closed handle's
identity fields are `null`. -/
def EngInv (s : Eng) : Prop :=
  (s.busy = s.inflight.isSome)
  ∧ (∀ m, s.maxActiveReqs = some m → 0 < m → s.activeReqs ≤ m)
  ∧ (∀ rid m, s.inflight = some (Inflight.init rid) → s.maxActiveReqs = some m → 0 < m →
      s.activeReqs < m)
  ∧ ((s.dstate = DevState.closed ∨ s.dstate = DevState.opening) →
      s.inflight = none ∧ s.busy = false ∧ s.activeReqs = 0 ∧ s.maxActiveReqs = none)
  ∧ (s.dstate = DevState.closed → s.devId = none ∧ s.fwVer = none)

/-- The concurrency cap is either unset or at most `m`: the shape of the
"never raised" guarantee for `_maxActiveReqs`. -/
def MaxLe (x : Eng) (m : Int) : Prop :=
  x.maxActiveReqs = none ∨ ∃ m2, x.maxActiveReqs = some m2 ∧ m2 ≤ m

/-- The request `rid` terminated without ever being assigned a protocol id
and with nothing of it pending: it is `done`, holds no `protoId`, sits in
neither the reset queue nor the in-flight slot. Such a request can never
again be the subject of a USB transfer. -/
abbrev Orphaned (s : Eng) (rid : Nat) : Prop :=
  (∃ r, heapGet s.heap rid = some r ∧ r.done = true ∧ r.protoId = none)
  ∧ rid ∉ s.resetQueue
  ∧ inflightFor rid s.inflight = false

/-- The result of an internal transition keeps request `rid` orphaned and
performs no USB transfer on its behalf. -/
abbrev KeepsOrphan (rid : Nat) (p : Eng × List Output) : Prop :=
  Orphaned p.1 rid ∧ ∀ o ∈ p.2, mentionsRid rid o = false

/-- The at-most-once completion bound for one internal transition from
`s` to `p`: a completed (`done`) request receives no further settlement
and stays `done`; at most one settlement is delivered; and delivering one
marks the request `done`. -/
abbrev OnceBound (s : Eng) (p : Eng × List Output) (rid : Nat) : Prop :=
  (doneIn s rid → doneIn p.1 rid ∧ completedCount rid p.2 = 0)
  ∧ completedCount rid p.2 ≤ 1
  ∧ (0 < completedCount rid p.2 → doneIn p.1 rid)

/-- Fixture: an `open()` whose open-time global RESET is still in flight
when a request with an armed timeout timer is submitted, so the request
waits in the pending queue with no INIT issued yet. -/
def c5PendingTrace : List Input :=
  [Input.openCall none, Input.openSerial "AB", Input.openVersion none, Input.openDone,
   Input.submit 40 none false true]

/-- Fixture: the handle with request 1 queued (timer armed, INIT not yet
sent) behind the in-flight open-time reset. -/
def sC5 : Eng := (run (mkDevice info0) c5PendingTrace).1

/-- Fixture: an idle open handle whose reset queue holds request 1, which
carries protocol id 7 — the shape `_process` sees right before issuing the
per-slot RESET transfer. -/
def sResetPending : Eng :=
  { mkDevice info0 with
      dstate := DevState.opened,
      heap := [(1, { rtype := 40, dataLen := none, dataIsStr := false, dataSent := true,
                     protoId := some 7, checkCount := 0, reqTimer := false, done := true })],
      resetQueue := [1] }

/-- Fixture: an idle open handle with the reset-all flag raised — the
shape `_process` sees right before issuing the global RESET transfer. -/
def sResetAllPending : Eng :=
  { mkDevice info0 with dstate := DevState.opened, resetAllReqs := true }

end DeviceBase

/- ================================================================
   Theorems
   ================================================================ -/

open DeviceBase

/-- C1: the claim says the leave outcome is accepted exactly when the final
state is `dfuMANIFEST`, or the status is `OK` with state `dfuDNLOAD_IDLE`,
every other combination failing with `DfuError("Invalid DFU state")`. The
code's guard `status === 'OK' && state !== 'dfuDNLOAD_IDLE'` never fires
for a non-`OK` status, so `leave` succeeds on the reply
(status = errNOTDONE, state = dfuIDLE) — which the claim (and the code's
own comment "Check if the leave command was executed without an error")
says must fail. This theorem evaluates the embedded `leave` on that run:
from `dfuIDLE`, the zero-length DNLOAD is sent, the final `GETSTATUS`
reports (errNOTDONE, dfuIDLE), and the call returns success. -/
theorem c1_leave_accepts_error_status :
    (dfuLeave
      { script :=
          { gets := [some ⟨DfuDeviceStatus.OK, DfuDeviceState.dfuIDLE⟩,
                     some ⟨DfuDeviceStatus.OK, DfuDeviceState.dfuIDLE⟩,
                     some ⟨DfuDeviceStatus.errNOTDONE, DfuDeviceState.dfuIDLE⟩],
            clrs := [], dnls := [true] },
        log := [] }).2 = Except.ok ()
    ∧ dfuLeaveAccepts ⟨DfuDeviceStatus.errNOTDONE, DfuDeviceState.dfuIDLE⟩ = true
    ∧ dfuLeaveAccepts ⟨DfuDeviceStatus.errNOTDONE, DfuDeviceState.dfuMANIFEST⟩ = true :=
  ⟨rfl, rfl, rfl⟩

/-- C7: for every attempt index `n`, the default polling policy returns the
`n`-th entry of `[50, 50, 100, 100, 250, 250, 500, 500, 1000]` when
`n < 9`, and `1000` for every `n ≥ 9`. -/
theorem c7_default_polling_policy (n : Nat) :
    (n < 9 → PollingPolicyDEFAULT n = DEFAULT_CHECK_INTERVALS.getD n 0)
    ∧ (9 ≤ n → PollingPolicyDEFAULT n = 1000) := by
  constructor
  · intro h
    interval_cases n <;> decide
  · intro h
    simp only [PollingPolicyDEFAULT, checkInterval, DEFAULT_CHECK_INTERVALS]
    rw [if_neg (by simp only [List.length_cons, List.length_nil]; omega)]
    rfl

/-- Witness for C7 at the concrete attempt indices 3 and 12. -/
theorem c7_default_polling_policy_witness :
    PollingPolicyDEFAULT 3 = DEFAULT_CHECK_INTERVALS.getD 3 0
    ∧ PollingPolicyDEFAULT 12 = 1000 :=
  ⟨(c7_default_polling_policy 3).1 (by decide), (c7_default_polling_policy 12).2 (by decide)⟩

/-- C8: the claim says a leave starting from `dfuERROR` issues exactly one
`GETSTATUS`, one `CLRSTATUS` and one confirming `GETSTATUS` before the
DNLOAD. In the source both `if` statements of
`_goIntoDfuIdleOrDfuDnloadIdle` test the same stale first read, so from
`dfuERROR` (which is also not an idle state) the `CLRSTATUS` is issued
twice. This theorem evaluates the embedded normalization on the claimed
scenario — first read (OK, dfuERROR), confirming read (OK, dfuIDLE), all
clears succeeding — and shows the transfer log holds two `CLRSTATUS`
transfers, not one. -/
theorem c8_goIntoIdle_double_clear :
    (goIntoDfuIdleOrDfuDnloadIdle
      { script :=
          { gets := [some ⟨DfuDeviceStatus.OK, DfuDeviceState.dfuERROR⟩,
                     some ⟨DfuDeviceStatus.OK, DfuDeviceState.dfuIDLE⟩],
            clrs := [true, true], dnls := [] },
        log := [] }).2 = Except.ok ()
    ∧ (goIntoDfuIdleOrDfuDnloadIdle
      { script :=
          { gets := [some ⟨DfuDeviceStatus.OK, DfuDeviceState.dfuERROR⟩,
                     some ⟨DfuDeviceStatus.OK, DfuDeviceState.dfuIDLE⟩],
            clrs := [true, true], dnls := [] },
        log := [] }).1.log
      = [DfuTransfer.getStatusReq, DfuTransfer.clrStatusReq, DfuTransfer.clrStatusReq,
         DfuTransfer.getStatusReq] :=
  ⟨rfl, rfl⟩

/-- C2 counterexample: the claim says `active_count` never exceeds
`max_active` once the latter is set. From the open idle handle, a BUSY
INIT reply arriving while `active_count` is 0 makes the engine set
`max_active := 0`; the send gate `if (this._maxActiveReqs && ...)` treats
the value 0 as unset, so the re-queued request is INIT'd again at once and
its OK reply drives `active_count` to 1, exceeding the recorded
`max_active = 0` (and a later BUSY could then raise it). -/
theorem c2_busy_at_zero_breaks_cap :
    (run sOpen c2Trace).1.maxActiveReqs = some 0
    ∧ (run sOpen c2Trace).1.activeReqs = 1
    ∧ (run sOpen c2Trace).2
        = [Output.xfer (Transfer.init 1 40 0), Output.xfer (Transfer.init 1 40 0)] := by
  decide

/-- C3 counterexample: the claim says every request that terminates after
being assigned a proto_id eventually gets a RESET (or global reset-all)
transfer. In this run request 1 is assigned proto_id 7 and RESOLVES; the
source's `_resolveRequest` only decrements `_activeReqs` and never queues
a RESET, so the complete interaction contains no reset transfer, the
reset queue and reset-all flag are clear, and the final state is a
fixpoint of `_process` — no further transfer will ever be issued for this
request. -/
theorem c3_resolved_request_slot_not_reset :
    (run sOpen c3Trace).2.filter isResetOutput = []
    ∧ completedCount 1 (run sOpen c3Trace).2 = 1
    ∧ ((heapGet (run sOpen c3Trace).1.heap 1).map Req.done) = some true
    ∧ ((heapGet (run sOpen c3Trace).1.heap 1).map Req.protoId) = some (some 7)
    ∧ (run sOpen c3Trace).1.resetQueue = []
    ∧ (run sOpen c3Trace).1.resetAllReqs = false
    ∧ process (run sOpen c3Trace).1 = ((run sOpen c3Trace).1, []) := by
  decide

/-- C4 counterexample: the claim says the device-ID, firmware-version,
type and DFU-flag accessors all return `null` whenever the state is not
`OPEN`. The `type` and `isInDfuMode` getters read the static `_info`
record and never return `null` — already on a freshly constructed
(`CLOSED`) handle — and during `OPENING`, once the serial number has been
read, the `id` getter already returns the (lower-cased) device id. -/
theorem c4_getters_not_null_outside_open :
    (mkDevice info0).dstate = DevState.closed
    ∧ typeGetter (mkDevice info0) = some "photon"
    ∧ isInDfuModeGetter (mkDevice info0) = some false
    ∧ (run (mkDevice info0) [Input.openCall none, Input.openSerial "AB"]).1.dstate
        = DevState.opening
    ∧ idGetter (run (mkDevice info0) [Input.openCall none, Input.openSerial "AB"]).1
        = some "ab" := by
  decide

/-- C5 counterexample: the claim says a request submitted with a timeout
of 0 is rejected with `TimeoutError` and no USB transfer is performed on
its behalf. In the source `if (options.timeout)` is falsy for 0, so no
request timer is armed at all: the submission is accepted, never rejected,
and its INIT transfer goes out immediately. -/
theorem c5_zero_timeout_sends_init :
    (run sOpen c5Trace).2 = [Output.xfer (Transfer.init 1 40 0)]
    ∧ ((heapGet (run sOpen c5Trace).1.heap 1).map Req.reqTimer) = some false
    ∧ ((heapGet (run sOpen c5Trace).1.heap 1).map Req.done) = some false
    ∧ completedCount 1 (run sOpen c5Trace).2 = 0 := by
  decide

/-- C10: calling `close()` on a handle whose state is already `CLOSED`
resolves immediately, performs no USB transfer, emits no event, and
returns the very same state record — every field unchanged. -/
theorem c10_close_on_closed_noop (s : Eng) (processPending timeoutArmed : Bool)
    (h : s.dstate = DevState.closed) :
    step s (Input.closeCall processPending timeoutArmed) = (s, [Output.closeResolved]) := by
  simp [step, h]

/-- Witness for C10 on a freshly constructed handle. -/
theorem c10_close_on_closed_noop_witness :
    step (mkDevice info0) (Input.closeCall true false) = (mkDevice info0, [Output.closeResolved]) :=
  c10_close_on_closed_noop (mkDevice info0) true false rfl

/-- Frame lemma: `_clearRequest` only touches the heap and the `_reqs`
map. -/
theorem clearRequest_frame (s : Eng) (rid : Nat) :
    (clearRequest s rid).activeReqs = s.activeReqs
    ∧ (clearRequest s rid).maxActiveReqs = s.maxActiveReqs
    ∧ (clearRequest s rid).busy = s.busy
    ∧ (clearRequest s rid).inflight = s.inflight
    ∧ (clearRequest s rid).dstate = s.dstate
    ∧ (clearRequest s rid).devId = s.devId
    ∧ (clearRequest s rid).fwVer = s.fwVer
    ∧ (clearRequest s rid).lastReqId = s.lastReqId
    ∧ (clearRequest s rid).reqQueue = s.reqQueue
    ∧ (clearRequest s rid).checkQueue = s.checkQueue
    ∧ (clearRequest s rid).resetQueue = s.resetQueue
    ∧ (clearRequest s rid).armedChecks = s.armedChecks
    ∧ (clearRequest s rid).resetAllReqs = s.resetAllReqs
    ∧ (clearRequest s rid).wantClose = s.wantClose
    ∧ (clearRequest s rid).closeTimer = s.closeTimer := by
  unfold clearRequest
  split <;> simp

/-- Frame lemma: `_rejectRequest` only touches the heap, the `_reqs` map
and (by appending) the reset queue. -/
theorem rejectRequest_frame (s : Eng) (rid : Nat) (e : ErrKind) :
    (rejectRequest s rid e).1.activeReqs = s.activeReqs
    ∧ (rejectRequest s rid e).1.maxActiveReqs = s.maxActiveReqs
    ∧ (rejectRequest s rid e).1.busy = s.busy
    ∧ (rejectRequest s rid e).1.inflight = s.inflight
    ∧ (rejectRequest s rid e).1.dstate = s.dstate
    ∧ (rejectRequest s rid e).1.devId = s.devId
    ∧ (rejectRequest s rid e).1.fwVer = s.fwVer
    ∧ (rejectRequest s rid e).1.lastReqId = s.lastReqId
    ∧ (rejectRequest s rid e).1.armedChecks = s.armedChecks
    ∧ (rejectRequest s rid e).1.reqQueue = s.reqQueue
    ∧ (rejectRequest s rid e).1.checkQueue = s.checkQueue
    ∧ (rejectRequest s rid e).1.resetAllReqs = s.resetAllReqs
    ∧ (rejectRequest s rid e).1.wantClose = s.wantClose
    ∧ (rejectRequest s rid e).1.closeTimer = s.closeTimer := by
  have hc := clearRequest_frame s rid
  unfold rejectRequest
  split
  · simp
  · split
    · simp
    · split
      · split <;> simp_all
      · simp_all

/-- Frame lemma: `_resolveRequest` only touches the heap, the `_reqs` map
and the active-request counter (which it decrements). -/
theorem resolveRequest_frame (s : Eng) (rid : Nat) (result : Int) :
    ((resolveRequest s rid result).1.activeReqs = s.activeReqs
      ∨ (resolveRequest s rid result).1.activeReqs = s.activeReqs - 1)
    ∧ (resolveRequest s rid result).1.maxActiveReqs = s.maxActiveReqs
    ∧ (resolveRequest s rid result).1.busy = s.busy
    ∧ (resolveRequest s rid result).1.inflight = s.inflight
    ∧ (resolveRequest s rid result).1.dstate = s.dstate
    ∧ (resolveRequest s rid result).1.devId = s.devId
    ∧ (resolveRequest s rid result).1.fwVer = s.fwVer
    ∧ (resolveRequest s rid result).1.lastReqId = s.lastReqId
    ∧ (resolveRequest s rid result).1.armedChecks = s.armedChecks
    ∧ (resolveRequest s rid result).1.reqQueue = s.reqQueue
    ∧ (resolveRequest s rid result).1.checkQueue = s.checkQueue
    ∧ (resolveRequest s rid result).1.resetQueue = s.resetQueue
    ∧ (resolveRequest s rid result).1.resetAllReqs = s.resetAllReqs
    ∧ (resolveRequest s rid result).1.wantClose = s.wantClose
    ∧ (resolveRequest s rid result).1.closeTimer = s.closeTimer := by
  have hc := clearRequest_frame s rid
  unfold resolveRequest
  split
  · simp
  · split
    · simp
    · dsimp only
      split <;> simp_all

/-- Frame lemma: `_startCheckTimer` only touches the heap and the armed
check-timer list. -/
theorem startCheckTimer_frame (s : Eng) (rid : Nat) :
    (startCheckTimer s rid).activeReqs = s.activeReqs
    ∧ (startCheckTimer s rid).maxActiveReqs = s.maxActiveReqs
    ∧ (startCheckTimer s rid).busy = s.busy
    ∧ (startCheckTimer s rid).inflight = s.inflight
    ∧ (startCheckTimer s rid).dstate = s.dstate
    ∧ (startCheckTimer s rid).devId = s.devId
    ∧ (startCheckTimer s rid).fwVer = s.fwVer
    ∧ (startCheckTimer s rid).lastReqId = s.lastReqId
    ∧ (startCheckTimer s rid).reqQueue = s.reqQueue
    ∧ (startCheckTimer s rid).checkQueue = s.checkQueue
    ∧ (startCheckTimer s rid).resetQueue = s.resetQueue
    ∧ (startCheckTimer s rid).resetAllReqs = s.resetAllReqs
    ∧ (startCheckTimer s rid).wantClose = s.wantClose
    ∧ (startCheckTimer s rid).closeTimer = s.closeTimer := by
  unfold startCheckTimer
  split <;> simp

/-- Frame lemma for the rejection fold inside `_rejectAllRequests`. -/
theorem rejectAllFold_frame (e : ErrKind) (ids : List Nat) (s : Eng) (outs : List Output) :
    ((ids.foldl
        (fun acc rid =>
          let (s', os) := rejectRequest acc.1 rid e
          (s', acc.2 ++ os))
        (s, outs)).1.activeReqs = s.activeReqs)
    ∧ ((ids.foldl
        (fun acc rid =>
          let (s', os) := rejectRequest acc.1 rid e
          (s', acc.2 ++ os))
        (s, outs)).1.maxActiveReqs = s.maxActiveReqs)
    ∧ ((ids.foldl
        (fun acc rid =>
          let (s', os) := rejectRequest acc.1 rid e
          (s', acc.2 ++ os))
        (s, outs)).1.busy = s.busy)
    ∧ ((ids.foldl
        (fun acc rid =>
          let (s', os) := rejectRequest acc.1 rid e
          (s', acc.2 ++ os))
        (s, outs)).1.inflight = s.inflight)
    ∧ ((ids.foldl
        (fun acc rid =>
          let (s', os) := rejectRequest acc.1 rid e
          (s', acc.2 ++ os))
        (s, outs)).1.dstate = s.dstate)
    ∧ ((ids.foldl
        (fun acc rid =>
          let (s', os) := rejectRequest acc.1 rid e
          (s', acc.2 ++ os))
        (s, outs)).1.devId = s.devId)
    ∧ ((ids.foldl
        (fun acc rid =>
          let (s', os) := rejectRequest acc.1 rid e
          (s', acc.2 ++ os))
        (s, outs)).1.fwVer = s.fwVer)
    ∧ ((ids.foldl
        (fun acc rid =>
          let (s', os) := rejectRequest acc.1 rid e
          (s', acc.2 ++ os))
        (s, outs)).1.lastReqId = s.lastReqId)
    ∧ ((ids.foldl
        (fun acc rid =>
          let (s', os) := rejectRequest acc.1 rid e
          (s', acc.2 ++ os))
        (s, outs)).1.wantClose = s.wantClose) := by
  induction ids generalizing s outs with
  | nil => simp
  | cons rid rest ih =>
    simp only [List.foldl_cons]
    rcases hrr : rejectRequest s rid e with ⟨s', os⟩
    have hr := rejectRequest_frame s rid e
    rw [hrr] at hr
    have ihh := ih s' (outs ++ os)
    simp only [hrr]
    exact ⟨ihh.1.trans hr.1, ihh.2.1.trans hr.2.1, ihh.2.2.1.trans hr.2.2.1,
      ihh.2.2.2.1.trans hr.2.2.2.1, ihh.2.2.2.2.1.trans hr.2.2.2.2.1,
      ihh.2.2.2.2.2.1.trans hr.2.2.2.2.2.1,
      ihh.2.2.2.2.2.2.1.trans hr.2.2.2.2.2.2.1,
      ihh.2.2.2.2.2.2.2.1.trans hr.2.2.2.2.2.2.2.1,
      ihh.2.2.2.2.2.2.2.2.trans hr.2.2.2.2.2.2.2.2.2.2.2.2.1⟩

/-- Frame lemma: `_rejectAllRequests` preserves the counters, the busy
flag, the in-flight slot, the lifecycle state and the identity fields. -/
theorem rejectAllRequests_frame (s : Eng) (e : ErrKind) :
    (rejectAllRequests s e).1.activeReqs = s.activeReqs
    ∧ (rejectAllRequests s e).1.maxActiveReqs = s.maxActiveReqs
    ∧ (rejectAllRequests s e).1.busy = s.busy
    ∧ (rejectAllRequests s e).1.inflight = s.inflight
    ∧ (rejectAllRequests s e).1.dstate = s.dstate
    ∧ (rejectAllRequests s e).1.devId = s.devId
    ∧ (rejectAllRequests s e).1.fwVer = s.fwVer
    ∧ (rejectAllRequests s e).1.lastReqId = s.lastReqId
    ∧ (rejectAllRequests s e).1.wantClose = s.wantClose := by
  have hf := rejectAllFold_frame e s.reqsMap s []
  unfold rejectAllRequests
  dsimp only
  split <;> simp_all

/-- What `_close` (with the `dev.close()` continuation) establishes and
preserves. -/
theorem closeInternal_spec (s : Eng) (e : Option ErrKind) :
    (closeInternal s e).1.dstate = DevState.closed
    ∧ (closeInternal s e).1.activeReqs = 0
    ∧ (closeInternal s e).1.maxActiveReqs = none
    ∧ (closeInternal s e).1.devId = none
    ∧ (closeInternal s e).1.fwVer = none
    ∧ (closeInternal s e).1.busy = s.busy
    ∧ (closeInternal s e).1.inflight = s.inflight
    ∧ (closeInternal s e).1.lastReqId = s.lastReqId
    ∧ (closeInternal s e).1.wantClose = false := by
  have hf := rejectAllRequests_frame s (e.getD (ErrKind.stateErr "Device has been closed"))
  unfold closeInternal
  dsimp only
  split <;> simp_all

/-- Starting an operation (setting `_busy` and the in-flight slot)
preserves the invariant, provided the INIT gate's guarantee holds when the
operation is an INIT. -/
theorem EngInv_start (s : Eng) (fl : Inflight)
    (hA : ∀ m, s.maxActiveReqs = some m → 0 < m → s.activeReqs ≤ m)
    (hBf : ∀ rid m, fl = Inflight.init rid → s.maxActiveReqs = some m → 0 < m →
      s.activeReqs < m)
    (hstate : s.dstate ≠ DevState.closed ∧ s.dstate ≠ DevState.opening) :
    EngInv { s with busy := true, inflight := some fl } := by
  refine ⟨by simp, by simpa using hA, ?_, ?_, ?_⟩
  · intro rid m hfl hm hpos
    simp only [Option.some.injEq] at hfl
    exact hBf rid m hfl (by simpa using hm) hpos
  · intro hcl
    rcases hcl with h | h
    · exact absurd h hstate.1
    · exact absurd h hstate.2
  · intro hcl
    exact absurd hcl hstate.1

/-- Invoking `_close` from a quiescent engine re-establishes the
invariant. -/
theorem EngInv_closeInternal (s : Eng) (e : Option ErrKind)
    (hb : s.busy = false) (hi : s.inflight = none) :
    EngInv (closeInternal s e).1 := by
  have hs := closeInternal_spec s e
  refine ⟨?_, ?_, ?_, ?_, ?_⟩
  · rw [hs.2.2.2.2.2.1, hs.2.2.2.2.2.2.1, hb, hi]
    rfl
  · intro m hm
    rw [hs.2.2.1] at hm
    exact absurd hm (by simp)
  · intro rid m hfl
    rw [hs.2.2.2.2.2.2.1, hi] at hfl
    exact absurd hfl (by simp)
  · intro _
    exact ⟨hs.2.2.2.2.2.2.1.trans hi, hs.2.2.2.2.2.1.trans hb, hs.2.1, hs.2.2.1⟩
  · intro _
    exact ⟨hs.2.2.2.1, hs.2.2.2.2.1⟩

/-- Assemble the invariant for a quiescent (not busy, nothing in flight)
engine state that is neither closed nor opening. -/
theorem EngInv_build (t : Eng)
    (hb : t.busy = false) (hi : t.inflight = none)
    (hA : ∀ m, t.maxActiveReqs = some m → 0 < m → t.activeReqs ≤ m)
    (hcl : t.dstate ≠ DevState.closed) (hop : t.dstate ≠ DevState.opening) :
    EngInv t := by
  refine ⟨by rw [hb, hi]; rfl, hA, ?_, ?_, ?_⟩
  · intro rid m hfl
    rw [hi] at hfl
    exact absurd hfl (by simp)
  · intro hc
    rcases hc with h | h
    · exact absurd h hcl
    · exact absurd h hop
  · intro hc
    exact absurd hc hcl

/-- `_process` preserves the engine invariant. -/
theorem inv_process (s : Eng) (h : EngInv s) : EngInv (process s).1 := by
  obtain ⟨hC, hA, hB, hD, hE⟩ := h
  unfold process
  split
  · exact ⟨hC, hA, hB, hD, hE⟩
  · rename_i hg
    push_neg at hg
    obtain ⟨hcl, hop, hbz⟩ := hg
    have hbusy : s.busy = false := by
      cases hsb : s.busy
      · rfl
      · exact absurd hsb hbz
    have hinfl : s.inflight = none := by
      cases hif : s.inflight with
      | none => rfl
      | some fl =>
        rw [hbusy, hif] at hC
        simp at hC
    dsimp only
    split
    next hw =>
      -- the engine latches CLOSING
      split
      next hra =>
        exact EngInv_start { s with dstate := DevState.closing } Inflight.resetAll
          (by simpa using hA) (by intro rid m hfl; simp at hfl) (by simp)
      next hra =>
        split
        next rid rest hq =>
          exact EngInv_start { s with dstate := DevState.closing, resetQueue := rest }
            (Inflight.resetOne rid) (by simpa using hA) (by intro rid' m hfl; simp at hfl)
            (by simp)
        next hq =>
          split
          next cq rid heqd =>
            exact EngInv_start { s with dstate := DevState.closing, checkQueue := cq }
              (Inflight.check rid) (by simpa using hA) (by intro rid' m hfl; simp at hfl)
              (by simp)
          next cq heqd =>
            try dsimp only
            split
            next hgate =>
              unfold closeCheck
              split
              next hcc =>
                exact EngInv_closeInternal _ _ (by simpa using hbusy) (by simpa using hinfl)
              next hcc =>
                exact EngInv_build _ (by simpa using hbusy) (by simpa using hinfl)
                  (by simpa using hA) (by simp) (by simp)
            next hgate =>
              split
              next rq rid heqr =>
                split
                next r heqh =>
                  refine EngInv_start
                    { s with dstate := DevState.closing, checkQueue := cq, reqQueue := rq }
                    (Inflight.init rid) (by simpa using hA) ?_ (by simp)
                  intro rid' m hfl hm hpos
                  dsimp only at hm hgate hpos ⊢
                  rw [hm] at hgate
                  simp at hgate
                  omega
                next heqh =>
                  unfold closeCheck
                  split
                  next hcc =>
                    exact EngInv_closeInternal _ _ (by simpa using hbusy) (by simpa using hinfl)
                  next hcc =>
                    exact EngInv_build _ (by simpa using hbusy) (by simpa using hinfl)
                      (by simpa using hA) (by simp) (by simp)
              next rq heqr =>
                unfold closeCheck
                split
                next hcc =>
                  exact EngInv_closeInternal _ _ (by simpa using hbusy) (by simpa using hinfl)
                next hcc =>
                  exact EngInv_build _ (by simpa using hbusy) (by simpa using hinfl)
                    (by simpa using hA) (by simp) (by simp)
    next hw =>
      -- no latch: the state passes through unchanged
      split
      next hra =>
        exact EngInv_start s Inflight.resetAll hA (by intro rid m hfl; simp at hfl)
          ⟨hcl, hop⟩
      next hra =>
        split
        next rid rest hq =>
          exact EngInv_start { s with resetQueue := rest } (Inflight.resetOne rid)
            (by simpa using hA) (by intro rid' m hfl; simp at hfl) (by simpa using ⟨hcl, hop⟩)
        next hq =>
          split
          next cq rid heqd =>
            exact EngInv_start { s with checkQueue := cq } (Inflight.check rid)
              (by simpa using hA) (by intro rid' m hfl; simp at hfl) (by simpa using ⟨hcl, hop⟩)
          next cq heqd =>
            try dsimp only
            split
            next hgate =>
              unfold closeCheck
              split
              next hcc =>
                exact EngInv_closeInternal _ _ (by simpa using hbusy) (by simpa using hinfl)
              next hcc =>
                exact EngInv_build _ (by simpa using hbusy) (by simpa using hinfl)
                  (by simpa using hA) (by simpa using hcl) (by simpa using hop)
            next hgate =>
              split
              next rq rid heqr =>
                split
                next r heqh =>
                  refine EngInv_start { s with checkQueue := cq, reqQueue := rq }
                    (Inflight.init rid) (by simpa using hA) ?_ (by simpa using ⟨hcl, hop⟩)
                  intro rid' m hfl hm hpos
                  dsimp only at hm hgate hpos ⊢
                  rw [hm] at hgate
                  simp at hgate
                  omega
                next heqh =>
                  unfold closeCheck
                  split
                  next hcc =>
                    exact EngInv_closeInternal _ _ (by simpa using hbusy) (by simpa using hinfl)
                  next hcc =>
                    exact EngInv_build _ (by simpa using hbusy) (by simpa using hinfl)
                      (by simpa using hA) (by simpa using hcl) (by simpa using hop)
              next rq heqr =>
                unfold closeCheck
                split
                next hcc =>
                  exact EngInv_closeInternal _ _ (by simpa using hbusy) (by simpa using hinfl)
                next hcc =>
                  exact EngInv_build _ (by simpa using hbusy) (by simpa using hinfl)
                    (by simpa using hA) (by simpa using hcl) (by simpa using hop)

/-- The state component of `andProcess` is that of `process`. -/
theorem andProcess_fst (s : Eng) (outs : List Output) : (andProcess s outs).1 = (process s).1 :=
  rfl

/-- Re-entering `_process` from an invariant state preserves the
invariant, whatever outputs are prepended. -/
theorem inv_andProcess (x : Eng) (outs : List Output) (h : EngInv x) :
    EngInv (andProcess x outs).1 := by
  rw [andProcess_fst]
  exact inv_process x h

/-- Rejecting a request and re-entering `_process` preserves the
invariant. -/
theorem inv_rejectAndProcess (x : Eng) (rid : Nat) (e : ErrKind)
    (hb : x.busy = false) (hi : x.inflight = none)
    (hA : ∀ m, x.maxActiveReqs = some m → 0 < m → x.activeReqs ≤ m)
    (hcl : x.dstate ≠ DevState.closed) (hop : x.dstate ≠ DevState.opening) :
    EngInv (match rejectRequest x rid e with | (s, os) => andProcess s os).1 := by
  rcases hrr : rejectRequest x rid e with ⟨s', os'⟩
  have hf := rejectRequest_frame x rid e
  rw [hrr] at hf
  dsimp only
  exact inv_andProcess _ _ (EngInv_build _ (hf.2.2.1.trans hb) (hf.2.2.2.1.trans hi)
    (by intro m hm hpos; rw [hf.2.1] at hm; rw [hf.1]; exact hA m hm hpos)
    (by rw [hf.2.2.2.2.1]; exact hcl) (by rw [hf.2.2.2.2.1]; exact hop))

/-- Resolving a request and re-entering `_process` preserves the
invariant. -/
theorem inv_resolveAndProcess (x : Eng) (rid : Nat) (result : Int)
    (hb : x.busy = false) (hi : x.inflight = none)
    (hA : ∀ m, x.maxActiveReqs = some m → 0 < m → x.activeReqs ≤ m)
    (hcl : x.dstate ≠ DevState.closed) (hop : x.dstate ≠ DevState.opening) :
    EngInv (match resolveRequest x rid result with | (s, os) => andProcess s os).1 := by
  rcases hrr : resolveRequest x rid result with ⟨s', os'⟩
  have hf := resolveRequest_frame x rid result
  rw [hrr] at hf
  dsimp only at hf
  dsimp only
  refine inv_andProcess _ _ (EngInv_build _ (hf.2.2.1.trans hb) (hf.2.2.2.1.trans hi)
    ?_ (by rw [hf.2.2.2.2.1]; exact hcl) (by rw [hf.2.2.2.2.1]; exact hop))
  intro m hm hpos
  rw [hf.2.1] at hm
  have := hA m hm hpos
  rcases hf.1 with ha | ha <;> omega

/-- Arming the polling timer and re-entering `_process` preserves the
invariant. -/
theorem inv_startCheckAndProcess (x : Eng) (rid : Nat)
    (hb : x.busy = false) (hi : x.inflight = none)
    (hA : ∀ m, x.maxActiveReqs = some m → 0 < m → x.activeReqs ≤ m)
    (hcl : x.dstate ≠ DevState.closed) (hop : x.dstate ≠ DevState.opening) :
    EngInv (andProcess (startCheckTimer x rid) []).1 := by
  have hf := startCheckTimer_frame x rid
  exact inv_andProcess _ _ (EngInv_build _ (hf.2.2.1.trans hb) (hf.2.2.2.1.trans hi)
    (by intro m hm hpos; rw [hf.2.1] at hm; rw [hf.1]; exact hA m hm hpos)
    (by rw [hf.2.2.2.2.1]; exact hcl) (by rw [hf.2.2.2.2.1]; exact hop))

/-- The INIT continuation preserves the invariant, given the send gate's
guarantee (`_activeReqs` strictly below any positive cap) for the state
the reply arrives in. -/
theorem inv_initCont (s0 : Eng) (rid : Nat) (rep : ServiceReply)
    (hb : s0.busy = false) (hi : s0.inflight = none)
    (hGate : ∀ m, s0.maxActiveReqs = some m → 0 < m → s0.activeReqs < m)
    (hcl : s0.dstate ≠ DevState.closed) (hop : s0.dstate ≠ DevState.opening) :
    EngInv (initCont s0 rid rep).1 := by
  have hA : ∀ m, s0.maxActiveReqs = some m → 0 < m → s0.activeReqs ≤ m :=
    fun m hm hpos => le_of_lt (hGate m hm hpos)
  obtain ⟨st, pid, sz, res⟩ := rep
  unfold initCont
  split
  next heq =>
    exact inv_andProcess _ _ (EngInv_build _ hb hi hA hcl hop)
  next r0 heq =>
    cases st with
    | ok =>
      dsimp only
      rw [if_pos (Or.inl rfl : ProtoStatus.ok = ProtoStatus.ok
            ∨ ProtoStatus.ok = ProtoStatus.pending),
          if_pos (Or.inl rfl : ProtoStatus.ok = ProtoStatus.ok
            ∨ ProtoStatus.ok = ProtoStatus.pending)]
      split
      next hlen =>
        refine EngInv_start _ (Inflight.initSend rid) ?_ (by intro rid' m hfl; simp at hfl)
          ⟨hcl, hop⟩
        intro m hm hpos
        have := hGate m hm hpos
        show s0.activeReqs + 1 ≤ m
        omega
      next hlen =>
        refine inv_startCheckAndProcess _ rid hb hi ?_ hcl hop
        intro m hm hpos
        have := hGate m hm hpos
        show s0.activeReqs + 1 ≤ m
        omega
    | pending =>
      dsimp only
      rw [if_pos (Or.inr rfl : ProtoStatus.pending = ProtoStatus.ok
            ∨ ProtoStatus.pending = ProtoStatus.pending),
          if_pos (Or.inr rfl : ProtoStatus.pending = ProtoStatus.ok
            ∨ ProtoStatus.pending = ProtoStatus.pending)]
      split
      next hnone =>
        refine inv_rejectAndProcess _ rid _ hb hi ?_ hcl hop
        intro m hm hpos
        have := hGate m hm hpos
        show s0.activeReqs + 1 ≤ m
        omega
      next hnone =>
        refine inv_startCheckAndProcess _ rid hb hi ?_ hcl hop
        intro m hm hpos
        have := hGate m hm hpos
        show s0.activeReqs + 1 ≤ m
        omega
    | busy =>
      dsimp only
      refine inv_andProcess _ _ (EngInv_build _ hb hi ?_ hcl hop)
      intro m hm hpos
      dsimp only at hm ⊢
      simp only [Option.some.injEq] at hm
      omega
    | noMemory =>
      dsimp only
      exact inv_rejectAndProcess _ rid _ hb hi hA hcl hop
    | notFound =>
      dsimp only
      exact inv_rejectAndProcess _ rid _ hb hi hA hcl hop
    | other code =>
      dsimp only
      exact inv_rejectAndProcess _ rid _ hb hi hA hcl hop

/-- The CHECK continuation preserves the invariant. -/
theorem inv_checkCont (s0 : Eng) (rid : Nat) (rep : ServiceReply)
    (hb : s0.busy = false) (hi : s0.inflight = none)
    (hA : ∀ m, s0.maxActiveReqs = some m → 0 < m → s0.activeReqs ≤ m)
    (hcl : s0.dstate ≠ DevState.closed) (hop : s0.dstate ≠ DevState.opening) :
    EngInv (checkCont s0 rid rep).1 := by
  unfold checkCont
  split
  next heq =>
    exact inv_andProcess _ _ (EngInv_build _ hb hi hA hcl hop)
  next r heq =>
    split
    · -- OK
      split
      next hsent =>
        split
        next hsize =>
          exact EngInv_start s0 (Inflight.recv rid rep.result) hA
            (by intro rid' m hfl; simp at hfl) ⟨hcl, hop⟩
        next hsize =>
          exact inv_resolveAndProcess _ rid _ hb hi hA hcl hop
      next hsent =>
        exact EngInv_start s0 (Inflight.checkSend rid) hA
          (by intro rid' m hfl; simp at hfl) ⟨hcl, hop⟩
    · -- PENDING
      exact inv_startCheckAndProcess _ rid hb hi hA hcl hop
    · -- NO_MEMORY
      exact inv_rejectAndProcess _ rid _ hb hi hA hcl hop
    · -- NOT_FOUND
      exact inv_rejectAndProcess _ rid _ hb hi hA hcl hop
    · -- other status codes
      exact inv_rejectAndProcess _ rid _ hb hi hA hcl hop

/-- Completing the in-flight transfer preserves the invariant. -/
theorem inv_finishStep (s : Eng) (res : XferResult) (h : EngInv s) :
    EngInv (finishStep s res).1 := by
  obtain ⟨hC, hA, hB, hD, hE⟩ := h
  unfold finishStep
  split
  next => exact ⟨hC, hA, hB, hD, hE⟩
  next fl hfl =>
    have hstate : s.dstate ≠ DevState.closed ∧ s.dstate ≠ DevState.opening := by
      constructor <;> intro hd
      · rcases hD (Or.inl hd) with ⟨hn, _⟩
        rw [hfl] at hn
        exact Option.noConfusion hn
      · rcases hD (Or.inr hd) with ⟨hn, _⟩
        rw [hfl] at hn
        exact Option.noConfusion hn
    cases fl with
    | resetAll =>
      try dsimp only
      refine inv_andProcess _ _ (EngInv_build _ ?_ ?_ ?_ ?_ ?_)
      · rfl
      · rfl
      · intro m hm hpos
        show (0 : Int) ≤ m
        omega
      · exact hstate.1
      · exact hstate.2
    | resetOne rid =>
      try dsimp only
      refine inv_andProcess _ _ (EngInv_build _ ?_ ?_ ?_ ?_ ?_)
      · rfl
      · rfl
      · intro m hm hpos
        show s.activeReqs - 1 ≤ m
        have := hA m hm hpos
        omega
      · exact hstate.1
      · exact hstate.2
    | init rid =>
      cases res with
      | rep rep =>
        try dsimp only
        refine inv_initCont _ rid rep ?_ ?_ ?_ ?_ ?_
        · rfl
        · rfl
        · intro m hm hpos
          exact hB rid m hfl hm hpos
        · exact hstate.1
        · exact hstate.2
      | outOk =>
        try dsimp only
        refine inv_rejectAndProcess _ rid _ ?_ ?_ ?_ ?_ ?_
        · rfl
        · rfl
        · exact hA
        · exact hstate.1
        · exact hstate.2
      | failed =>
        try dsimp only
        refine inv_rejectAndProcess _ rid _ ?_ ?_ ?_ ?_ ?_
        · rfl
        · rfl
        · exact hA
        · exact hstate.1
        · exact hstate.2
    | initSend rid =>
      cases res with
      | failed =>
        try dsimp only
        refine inv_rejectAndProcess _ rid _ ?_ ?_ ?_ ?_ ?_
        · rfl
        · rfl
        · exact hA
        · exact hstate.1
        · exact hstate.2
      | rep rep =>
        try dsimp only
        split
        next r heq2 =>
          refine inv_startCheckAndProcess _ rid ?_ ?_ ?_ ?_ ?_
          · rfl
          · rfl
          · exact hA
          · exact hstate.1
          · exact hstate.2
        next heq2 =>
          refine inv_andProcess _ _ (EngInv_build _ ?_ ?_ ?_ ?_ ?_)
          · rfl
          · rfl
          · exact hA
          · exact hstate.1
          · exact hstate.2
      | outOk =>
        try dsimp only
        split
        next r heq2 =>
          refine inv_startCheckAndProcess _ rid ?_ ?_ ?_ ?_ ?_
          · rfl
          · rfl
          · exact hA
          · exact hstate.1
          · exact hstate.2
        next heq2 =>
          refine inv_andProcess _ _ (EngInv_build _ ?_ ?_ ?_ ?_ ?_)
          · rfl
          · rfl
          · exact hA
          · exact hstate.1
          · exact hstate.2
    | check rid =>
      cases res with
      | rep rep =>
        try dsimp only
        refine inv_checkCont _ rid rep ?_ ?_ ?_ ?_ ?_
        · rfl
        · rfl
        · exact hA
        · exact hstate.1
        · exact hstate.2
      | outOk =>
        try dsimp only
        refine inv_rejectAndProcess _ rid _ ?_ ?_ ?_ ?_ ?_
        · rfl
        · rfl
        · exact hA
        · exact hstate.1
        · exact hstate.2
      | failed =>
        try dsimp only
        refine inv_rejectAndProcess _ rid _ ?_ ?_ ?_ ?_ ?_
        · rfl
        · rfl
        · exact hA
        · exact hstate.1
        · exact hstate.2
    | checkSend rid =>
      cases res with
      | failed =>
        try dsimp only
        refine inv_rejectAndProcess _ rid _ ?_ ?_ ?_ ?_ ?_
        · rfl
        · rfl
        · exact hA
        · exact hstate.1
        · exact hstate.2
      | rep rep =>
        try dsimp only
        split
        next r heq2 =>
          refine inv_startCheckAndProcess _ rid ?_ ?_ ?_ ?_ ?_
          · rfl
          · rfl
          · exact hA
          · exact hstate.1
          · exact hstate.2
        next heq2 =>
          refine inv_andProcess _ _ (EngInv_build _ ?_ ?_ ?_ ?_ ?_)
          · rfl
          · rfl
          · exact hA
          · exact hstate.1
          · exact hstate.2
      | outOk =>
        try dsimp only
        split
        next r heq2 =>
          refine inv_startCheckAndProcess _ rid ?_ ?_ ?_ ?_ ?_
          · rfl
          · rfl
          · exact hA
          · exact hstate.1
          · exact hstate.2
        next heq2 =>
          refine inv_andProcess _ _ (EngInv_build _ ?_ ?_ ?_ ?_ ?_)
          · rfl
          · rfl
          · exact hA
          · exact hstate.1
          · exact hstate.2
    | recv rid result =>
      cases res with
      | failed =>
        try dsimp only
        refine inv_rejectAndProcess _ rid _ ?_ ?_ ?_ ?_ ?_
        · rfl
        · rfl
        · exact hA
        · exact hstate.1
        · exact hstate.2
      | rep rep =>
        try dsimp only
        refine inv_resolveAndProcess _ rid result ?_ ?_ ?_ ?_ ?_
        · rfl
        · rfl
        · exact hA
        · exact hstate.1
        · exact hstate.2
      | outOk =>
        try dsimp only
        refine inv_resolveAndProcess _ rid result ?_ ?_ ?_ ?_ ?_
        · rfl
        · rfl
        · exact hA
        · exact hstate.1
        · exact hstate.2

/-- `_rejectAllRequests` preserves the invariant (also mid-transfer). -/
theorem EngInv_rejectAll (x : Eng) (e : ErrKind) (h : EngInv x) :
    EngInv (rejectAllRequests x e).1 := by
  obtain ⟨hC, hA, hB, hD, hE⟩ := h
  have hf := rejectAllRequests_frame x e
  refine ⟨?_, ?_, ?_, ?_, ?_⟩
  · rw [hf.2.2.1, hf.2.2.2.1]
    exact hC
  · intro m hm hpos
    rw [hf.2.1] at hm
    rw [hf.1]
    exact hA m hm hpos
  · intro rid m hifl hm hpos
    rw [hf.2.2.2.1] at hifl
    rw [hf.2.1] at hm
    rw [hf.1]
    exact hB rid m hifl hm hpos
  · intro hd
    rw [hf.2.2.2.2.1] at hd
    have hh := hD hd
    exact ⟨hf.2.2.2.1.trans hh.1, hf.2.2.1.trans hh.2.1, hf.1.trans hh.2.2.1,
      hf.2.1.trans hh.2.2.2⟩
  · intro hd
    rw [hf.2.2.2.2.1] at hd
    have hh := hE hd
    exact ⟨hf.2.2.2.2.2.1.trans hh.1, hf.2.2.2.2.2.2.1.trans hh.2⟩

/-- `_rejectRequest` followed by `_process` preserves the invariant (also
mid-transfer, e.g. when a request timer fires while a transfer is in
flight). -/
theorem inv_rejectRequestInv (x : Eng) (rid : Nat) (e : ErrKind) (h : EngInv x) :
    EngInv (match rejectRequest x rid e with | (s, os) => andProcess s os).1 := by
  obtain ⟨hC, hA, hB, hD, hE⟩ := h
  rcases hrr : rejectRequest x rid e with ⟨s', os'⟩
  have hf := rejectRequest_frame x rid e
  rw [hrr] at hf
  dsimp only at hf ⊢
  refine inv_andProcess _ _ ⟨?_, ?_, ?_, ?_, ?_⟩
  · rw [hf.2.2.1, hf.2.2.2.1]
    exact hC
  · intro m hm hpos
    rw [hf.2.1] at hm
    rw [hf.1]
    exact hA m hm hpos
  · intro rid' m hifl hm hpos
    rw [hf.2.2.2.1] at hifl
    rw [hf.2.1] at hm
    rw [hf.1]
    exact hB rid' m hifl hm hpos
  · intro hd
    rw [hf.2.2.2.2.1] at hd
    have hh := hD hd
    exact ⟨hf.2.2.2.1.trans hh.1, hf.2.2.1.trans hh.2.1, hf.1.trans hh.2.2.1,
      hf.2.1.trans hh.2.2.2⟩
  · intro hd
    rw [hf.2.2.2.2.1] at hd
    have hh := hE hd
    exact ⟨hf.2.2.2.2.2.1.trans hh.1, hf.2.2.2.2.2.2.1.trans hh.2⟩

/-- Every step of the transition system preserves the invariant. -/
theorem inv_step (s : Eng) (i : Input) (h : EngInv s) : EngInv (step s i).1 := by
  obtain ⟨hC, hA, hB, hD, hE⟩ := h
  cases i with
  | openCall copt =>
    unfold step
    dsimp only
    split
    next => exact ⟨hC, hA, hB, hD, hE⟩
    next hne =>
      have hcl : s.dstate = DevState.closed := not_not.mp hne
      refine ⟨hC, hA, hB, ?_, ?_⟩
      · intro _
        exact hD (Or.inl hcl)
      · intro hd
        exact DevState.noConfusion hd
  | openSerial ser =>
    unfold step
    dsimp only
    split
    next hop2 =>
      refine ⟨hC, hA, hB, hD, ?_⟩
      intro hd
      dsimp only at hd
      rw [hop2] at hd
      exact DevState.noConfusion hd
    next => exact ⟨hC, hA, hB, hD, hE⟩
  | openVersion v =>
    unfold step
    dsimp only
    split
    next hop2 =>
      refine ⟨hC, hA, hB, hD, ?_⟩
      intro hd
      dsimp only at hd
      rw [hop2] at hd
      exact DevState.noConfusion hd
    next => exact ⟨hC, hA, hB, hD, hE⟩
  | openDone =>
    unfold step
    dsimp only
    split
    next hop2 =>
      have hDo := hD (Or.inr hop2)
      refine inv_process _ ⟨hC, ?_, ?_, ?_, ?_⟩
      · intro m hm hpos
        show s.activeReqs ≤ m
        rw [hDo.2.2.1]
        omega
      · intro rid m hifl
        have hifl2 : s.inflight = some (Inflight.init rid) := hifl
        rw [hDo.1] at hifl2
        exact absurd hifl2 (by simp)
      · intro hd
        rcases hd with hd | hd <;> exact DevState.noConfusion hd
      · intro hd
        exact DevState.noConfusion hd
    next => exact ⟨hC, hA, hB, hD, hE⟩
  | openFail =>
    unfold step
    dsimp only
    split
    next hop2 =>
      have hDo := hD (Or.inr hop2)
      exact EngInv_closeInternal s _ hDo.2.1 hDo.1
    next => exact ⟨hC, hA, hB, hD, hE⟩
  | closeCall processPending timeoutArmed =>
    unfold step
    dsimp only
    split
    next => exact ⟨hC, hA, hB, hD, hE⟩
    next hne =>
      split
      next hpp =>
        rcases hra : rejectAllRequests s (ErrKind.stateErr "Device is being closed")
          with ⟨sa, os⟩
        have hinv : EngInv sa := by
          have hh := EngInv_rejectAll s (ErrKind.stateErr "Device is being closed")
            ⟨hC, hA, hB, hD, hE⟩
          rw [hra] at hh
          exact hh
        obtain ⟨hC1, hA1, hB1, hD1, hE1⟩ := hinv
        dsimp only
        exact inv_andProcess _ _ ⟨hC1, hA1, hB1, hD1, hE1⟩
      next =>
        split
        next hta => exact inv_andProcess _ _ ⟨hC, hA, hB, hD, hE⟩
        next hta => exact inv_andProcess _ _ ⟨hC, hA, hB, hD, hE⟩
  | closeTimerFire =>
    unfold step
    dsimp only
    split
    next hct =>
      rcases hra : rejectAllRequests { s with closeTimer := false }
        (ErrKind.stateErr "Device is being closed") with ⟨sa, os⟩
      have hinv : EngInv sa := by
        have hh := EngInv_rejectAll { s with closeTimer := false }
          (ErrKind.stateErr "Device is being closed") ⟨hC, hA, hB, hD, hE⟩
        rw [hra] at hh
        exact hh
      obtain ⟨hC1, hA1, hB1, hD1, hE1⟩ := hinv
      dsimp only
      exact inv_andProcess _ _ ⟨hC1, hA1, hB1, hD1, hE1⟩
    next => exact ⟨hC, hA, hB, hD, hE⟩
  | submit ty dataLen dataIsStr timeoutArmed =>
    unfold step
    dsimp only
    split
    next => exact ⟨hC, hA, hB, hD, hE⟩
    next hne1 =>
      split
      next => exact ⟨hC, hA, hB, hD, hE⟩
      next hne2 =>
        split
        next => exact ⟨hC, hA, hB, hD, hE⟩
        next hne3 =>
          split
          next => exact ⟨hC, hA, hB, hD, hE⟩
          next hne4 =>
            refine inv_andProcess _ _ ⟨hC, hA, hB, ?_, ?_⟩
            · intro hd
              exact hD hd
            · intro hd
              exact absurd hd hne1
  | finish res => exact inv_finishStep s res ⟨hC, hA, hB, hD, hE⟩
  | reqTimerFire rid =>
    unfold step
    dsimp only
    split
    next r heq =>
      split
      next hrt => exact inv_rejectRequestInv s rid ErrKind.timeoutErr ⟨hC, hA, hB, hD, hE⟩
      next hrt => exact ⟨hC, hA, hB, hD, hE⟩
    next => exact ⟨hC, hA, hB, hD, hE⟩
  | checkTimerFire rid =>
    unfold step
    dsimp only
    split
    next hmem => exact inv_andProcess _ _ ⟨hC, hA, hB, hD, hE⟩
    next hmem => exact ⟨hC, hA, hB, hD, hE⟩

/-- The invariant holds for a freshly constructed handle. -/
theorem inv_mkDevice (info : DeviceInfo) : EngInv (mkDevice info) := by
  refine ⟨rfl, ?_, ?_, ?_, ?_⟩
  · intro m hm hpos
    exact absurd hm (by simp [mkDevice])
  · intro rid m hifl
    exact absurd hifl (by simp [mkDevice])
  · intro _
    exact ⟨rfl, rfl, rfl, rfl⟩
  · intro _
    exact ⟨rfl, rfl⟩

/-- The invariant holds in every reachable state. -/
theorem inv_reachable {info : DeviceInfo} {s : Eng} (h : Reachable info s) : EngInv s := by
  induction h with
  | init => exact inv_mkDevice info
  | next i hr ih => exact inv_step _ i ih

/-- `_process` never changes the concurrency cap except by clearing it on
close. -/
theorem process_max (x : Eng) :
    (process x).1.maxActiveReqs = x.maxActiveReqs ∨ (process x).1.maxActiveReqs = none := by
  unfold process closeCheck
  split
  next => left; rfl
  next =>
    dsimp only
    split
    next =>
      split
      next => left; rfl
      next =>
        split
        next => left; rfl
        next =>
          split
          next => left; rfl
          next =>
            try dsimp only
            split
            next =>
              split
              next => right; exact (closeInternal_spec _ _).2.2.1
              next => left; rfl
            next =>
              split
              next =>
                split
                next => left; rfl
                next =>
                  split
                  next => right; exact (closeInternal_spec _ _).2.2.1
                  next => left; rfl
              next =>
                split
                next => right; exact (closeInternal_spec _ _).2.2.1
                next => left; rfl
    next =>
      split
      next => left; rfl
      next =>
        split
        next => left; rfl
        next =>
          split
          next => left; rfl
          next =>
            try dsimp only
            split
            next =>
              split
              next => right; exact (closeInternal_spec _ _).2.2.1
              next => left; rfl
            next =>
              split
              next =>
                split
                next => left; rfl
                next =>
                  split
                  next => right; exact (closeInternal_spec _ _).2.2.1
                  next => left; rfl
              next =>
                split
                next => right; exact (closeInternal_spec _ _).2.2.1
                next => left; rfl

/-- `_process` preserves a cap bound. -/
theorem maxLe_process (x : Eng) (m : Int) (h : MaxLe x m) : MaxLe (process x).1 m := by
  rcases process_max x with hp | hp
  · rcases h with h | ⟨m2, hm2, hle⟩
    · left
      rw [hp, h]
    · right
      exact ⟨m2, by rw [hp, hm2], hle⟩
  · left
    exact hp

/-- `andProcess` preserves a cap bound. -/
theorem maxLe_andProcess (x : Eng) (outs : List Output) (m : Int) (h : MaxLe x m) :
    MaxLe (andProcess x outs).1 m := by
  rw [andProcess_fst]
  exact maxLe_process x m h

/-- Rejecting a request preserves a cap bound. -/
theorem maxLe_rejectAndProcess (x : Eng) (rid : Nat) (e : ErrKind) (m : Int) (h : MaxLe x m) :
    MaxLe (match rejectRequest x rid e with | (s, os) => andProcess s os).1 m := by
  rcases hrr : rejectRequest x rid e with ⟨s1, os1⟩
  have hf := rejectRequest_frame x rid e
  rw [hrr] at hf
  dsimp only at hf ⊢
  apply maxLe_andProcess
  rcases h with h | ⟨m2, hm2, hle⟩
  · left
    rw [hf.2.1, h]
  · right
    exact ⟨m2, by rw [hf.2.1, hm2], hle⟩

/-- Resolving a request preserves a cap bound. -/
theorem maxLe_resolveAndProcess (x : Eng) (rid : Nat) (result : Int) (m : Int)
    (h : MaxLe x m) :
    MaxLe (match resolveRequest x rid result with | (s, os) => andProcess s os).1 m := by
  rcases hrr : resolveRequest x rid result with ⟨s1, os1⟩
  have hf := resolveRequest_frame x rid result
  rw [hrr] at hf
  dsimp only at hf ⊢
  apply maxLe_andProcess
  rcases h with h | ⟨m2, hm2, hle⟩
  · left
    rw [hf.2.1, h]
  · right
    exact ⟨m2, by rw [hf.2.1, hm2], hle⟩

/-- Arming the polling timer preserves a cap bound. -/
theorem maxLe_startCheckAndProcess (x : Eng) (rid : Nat) (m : Int) (h : MaxLe x m) :
    MaxLe (andProcess (startCheckTimer x rid) []).1 m := by
  apply maxLe_andProcess
  have hf := startCheckTimer_frame x rid
  rcases h with h | ⟨m2, hm2, hle⟩
  · left
    rw [hf.2.1, h]
  · right
    exact ⟨m2, by rw [hf.2.1, hm2], hle⟩

/-- The INIT continuation never raises the cap above `m` when the reply
arrives with `_activeReqs < m`: a BUSY reply records the strictly smaller
current count, every other branch leaves the cap alone. -/
theorem initCont_max (s0 : Eng) (rid : Nat) (rep : ServiceReply) (m : Int)
    (hm : s0.maxActiveReqs = some m) (hlt : s0.activeReqs < m) :
    MaxLe (initCont s0 rid rep).1 m := by
  have hself : MaxLe s0 m := Or.inr ⟨m, hm, le_refl m⟩
  obtain ⟨st, pid, sz, res⟩ := rep
  unfold initCont
  split
  next => exact maxLe_andProcess _ _ _ hself
  next r0 heq =>
    cases st with
    | ok =>
      dsimp only
      rw [if_pos (Or.inl rfl : ProtoStatus.ok = ProtoStatus.ok
            ∨ ProtoStatus.ok = ProtoStatus.pending),
          if_pos (Or.inl rfl : ProtoStatus.ok = ProtoStatus.ok
            ∨ ProtoStatus.ok = ProtoStatus.pending)]
      split
      next => exact Or.inr ⟨m, hm, le_refl m⟩
      next =>
        apply maxLe_startCheckAndProcess
        exact Or.inr ⟨m, hm, le_refl m⟩
    | pending =>
      dsimp only
      rw [if_pos (Or.inr rfl : ProtoStatus.pending = ProtoStatus.ok
            ∨ ProtoStatus.pending = ProtoStatus.pending),
          if_pos (Or.inr rfl : ProtoStatus.pending = ProtoStatus.ok
            ∨ ProtoStatus.pending = ProtoStatus.pending)]
      split
      next =>
        apply maxLe_rejectAndProcess
        exact Or.inr ⟨m, hm, le_refl m⟩
      next =>
        apply maxLe_startCheckAndProcess
        exact Or.inr ⟨m, hm, le_refl m⟩
    | busy =>
      dsimp only
      apply maxLe_andProcess
      exact Or.inr ⟨s0.activeReqs, rfl, le_of_lt hlt⟩
    | noMemory =>
      dsimp only
      apply maxLe_rejectAndProcess
      exact hself
    | notFound =>
      dsimp only
      apply maxLe_rejectAndProcess
      exact hself
    | other code =>
      dsimp only
      apply maxLe_rejectAndProcess
      exact hself

/-- The CHECK continuation never changes the cap. -/
theorem checkCont_max (s0 : Eng) (rid : Nat) (rep : ServiceReply) (m : Int)
    (hself : MaxLe s0 m) : MaxLe (checkCont s0 rid rep).1 m := by
  unfold checkCont
  split
  next => exact maxLe_andProcess _ _ _ hself
  next r heq =>
    split
    · split
      next =>
        split
        next => exact hself
        next => exact maxLe_resolveAndProcess _ _ _ _ hself
      next => exact hself
    · exact maxLe_startCheckAndProcess _ _ _ hself
    · exact maxLe_rejectAndProcess _ _ _ _ hself
    · exact maxLe_rejectAndProcess _ _ _ _ hself
    · exact maxLe_rejectAndProcess _ _ _ _ hself

/-- Completing the in-flight transfer never raises a positive cap. -/
theorem finishStep_max (s : Eng) (res : XferResult) (m : Int) (h : EngInv s)
    (hm : s.maxActiveReqs = some m) (hpos : 0 < m) :
    MaxLe (finishStep s res).1 m := by
  obtain ⟨hC, hA, hB, hD, hE⟩ := h
  have hself : MaxLe s m := Or.inr ⟨m, hm, le_refl m⟩
  unfold finishStep
  split
  next => exact hself
  next fl hfl =>
    cases fl with
    | resetAll =>
      try dsimp only
      exact maxLe_andProcess _ _ _ hself
    | resetOne rid =>
      try dsimp only
      exact maxLe_andProcess _ _ _ hself
    | init rid =>
      cases res with
      | rep rep =>
        try dsimp only
        exact initCont_max _ rid rep m hm (hB rid m hfl hm hpos)
      | outOk =>
        try dsimp only
        exact maxLe_rejectAndProcess _ _ _ _ hself
      | failed =>
        try dsimp only
        exact maxLe_rejectAndProcess _ _ _ _ hself
    | initSend rid =>
      cases res with
      | failed =>
        try dsimp only
        exact maxLe_rejectAndProcess _ _ _ _ hself
      | rep rep =>
        try dsimp only
        split
        next r heq2 => exact maxLe_startCheckAndProcess _ _ _ hself
        next heq2 => exact maxLe_andProcess _ _ _ hself
      | outOk =>
        try dsimp only
        split
        next r heq2 => exact maxLe_startCheckAndProcess _ _ _ hself
        next heq2 => exact maxLe_andProcess _ _ _ hself
    | check rid =>
      cases res with
      | rep rep =>
        try dsimp only
        exact checkCont_max _ rid rep m hself
      | outOk =>
        try dsimp only
        exact maxLe_rejectAndProcess _ _ _ _ hself
      | failed =>
        try dsimp only
        exact maxLe_rejectAndProcess _ _ _ _ hself
    | checkSend rid =>
      cases res with
      | failed =>
        try dsimp only
        exact maxLe_rejectAndProcess _ _ _ _ hself
      | rep rep =>
        try dsimp only
        split
        next r heq2 => exact maxLe_startCheckAndProcess _ _ _ hself
        next heq2 => exact maxLe_andProcess _ _ _ hself
      | outOk =>
        try dsimp only
        split
        next r heq2 => exact maxLe_startCheckAndProcess _ _ _ hself
        next heq2 => exact maxLe_andProcess _ _ _ hself
    | recv rid result =>
      cases res with
      | failed =>
        try dsimp only
        exact maxLe_rejectAndProcess _ _ _ _ hself
      | rep rep =>
        try dsimp only
        exact maxLe_resolveAndProcess _ _ _ _ hself
      | outOk =>
        try dsimp only
        exact maxLe_resolveAndProcess _ _ _ _ hself

/-- No step of the engine raises a positive concurrency cap: it is either
kept, lowered (BUSY), or cleared (close). -/
theorem step_max (s : Eng) (i : Input) (m : Int) (h : EngInv s)
    (hm : s.maxActiveReqs = some m) (hpos : 0 < m) :
    MaxLe (step s i).1 m := by
  obtain ⟨hC, hA, hB, hD, hE⟩ := h
  have hself : MaxLe s m := Or.inr ⟨m, hm, le_refl m⟩
  cases i with
  | openCall copt =>
    unfold step
    dsimp only
    split
    next => exact hself
    next hne =>
      have hx := (hD (Or.inl (not_not.mp hne))).2.2.2
      rw [hm] at hx
      exact Option.noConfusion hx
  | openSerial ser =>
    unfold step
    dsimp only
    split
    next => exact hself
    next => exact hself
  | openVersion v =>
    unfold step
    dsimp only
    split
    next => exact hself
    next => exact hself
  | openDone =>
    unfold step
    dsimp only
    split
    next hop2 =>
      have hx := (hD (Or.inr hop2)).2.2.2
      rw [hm] at hx
      exact Option.noConfusion hx
    next => exact hself
  | openFail =>
    unfold step
    dsimp only
    split
    next hop2 =>
      left
      exact (closeInternal_spec _ _).2.2.1
    next => exact hself
  | closeCall processPending timeoutArmed =>
    unfold step
    dsimp only
    split
    next => exact hself
    next hne =>
      split
      next hpp =>
        rcases hra : rejectAllRequests s (ErrKind.stateErr "Device is being closed")
          with ⟨sa, os⟩
        have hf := rejectAllRequests_frame s (ErrKind.stateErr "Device is being closed")
        rw [hra] at hf
        dsimp only at hf ⊢
        apply maxLe_andProcess
        right
        exact ⟨m, by rw [show sa.maxActiveReqs = s.maxActiveReqs from hf.2.1, hm], le_refl m⟩
      next =>
        split
        next hta =>
          apply maxLe_andProcess
          exact Or.inr ⟨m, hm, le_refl m⟩
        next hta =>
          apply maxLe_andProcess
          exact Or.inr ⟨m, hm, le_refl m⟩
  | closeTimerFire =>
    unfold step
    dsimp only
    split
    next hct =>
      rcases hra : rejectAllRequests { s with closeTimer := false }
        (ErrKind.stateErr "Device is being closed") with ⟨sa, os⟩
      have hf := rejectAllRequests_frame { s with closeTimer := false }
        (ErrKind.stateErr "Device is being closed")
      rw [hra] at hf
      dsimp only at hf ⊢
      apply maxLe_andProcess
      right
      refine ⟨m, ?_, le_refl m⟩
      rw [show sa.maxActiveReqs = ({ s with closeTimer := false } : Eng).maxActiveReqs
        from hf.2.1]
      exact hm
    next => exact hself
  | submit ty dataLen dataIsStr timeoutArmed =>
    unfold step
    dsimp only
    split
    next => exact hself
    next hne1 =>
      split
      next => exact hself
      next hne2 =>
        split
        next => exact hself
        next hne3 =>
          split
          next => exact hself
          next hne4 =>
            apply maxLe_andProcess
            exact Or.inr ⟨m, hm, le_refl m⟩
  | finish res => exact finishStep_max s res m ⟨hC, hA, hB, hD, hE⟩ hm hpos
  | reqTimerFire rid =>
    unfold step
    dsimp only
    split
    next r heq =>
      split
      next hrt => exact maxLe_rejectAndProcess _ _ _ _ hself
      next hrt => exact hself
    next => exact hself
  | checkTimerFire rid =>
    unfold step
    dsimp only
    split
    next hmem =>
      apply maxLe_andProcess
      exact Or.inr ⟨m, hm, le_refl m⟩
    next hmem => exact hself

/-- Every state a run reaches from a fresh handle is reachable. -/
theorem run_reachable (info : DeviceInfo) (is : List Input) :
    Reachable info (run (mkDevice info) is).1 := by
  suffices h : ∀ s : Eng, Reachable info s → Reachable info (run s is).1 from
    h (mkDevice info) Reachable.init
  induction is with
  | nil =>
    intro s hs
    exact hs
  | cons i rest ih =>
    intro s hs
    exact ih (step s i).1 (Reachable.next i hs)

/-- When the send gate is blocked by a non-zero cap and requests are
active, `_process` leaves both the cap and the pending queue alone (it can
only start a reset or a CHECK). -/
theorem process_gateBlocked (x : Eng) (m : Int)
    (hm : x.maxActiveReqs = some m) (hm0 : m ≠ 0) (hge : m ≤ x.activeReqs)
    (hact : x.activeReqs ≠ 0) :
    (process x).1.maxActiveReqs = x.maxActiveReqs
    ∧ (process x).1.reqQueue = x.reqQueue := by
  unfold process closeCheck
  split
  next => exact ⟨rfl, rfl⟩
  next =>
    dsimp only
    split
    next =>
      split
      next => exact ⟨rfl, rfl⟩
      next =>
        split
        next => exact ⟨rfl, rfl⟩
        next =>
          split
          next => exact ⟨rfl, rfl⟩
          next =>
            try dsimp only
            split
            next hgate =>
              split
              next hcc =>
                exact absurd hcc.2 hact
              next => exact ⟨rfl, rfl⟩
            next hgate =>
              exfalso
              try dsimp only at hgate
              rw [hm] at hgate
              simp at hgate
              omega
    next =>
      split
      next => exact ⟨rfl, rfl⟩
      next =>
        split
        next => exact ⟨rfl, rfl⟩
        next =>
          split
          next => exact ⟨rfl, rfl⟩
          next =>
            try dsimp only
            split
            next hgate =>
              split
              next hcc =>
                exact absurd hcc.2 hact
              next => exact ⟨rfl, rfl⟩
            next hgate =>
              exfalso
              try dsimp only at hgate
              rw [hm] at hgate
              simp at hgate
              omega

/-- C2 (amended): in every reachable engine state, (1) whenever
`_maxActiveReqs` holds a positive value `m`, `_activeReqs` is at most `m`;
(2) no step raises a positive cap — it is kept, lowered, or cleared by
close; (3) a BUSY INIT reply (arriving with at least one active request)
sets `_maxActiveReqs` to the current `_activeReqs` and returns the request
to the head of the pending queue. The positivity condition is the
amendment: a BUSY reply at `_activeReqs == 0` records a cap of 0, which
the send gate's truthiness test `if (this._maxActiveReqs && ...)` treats
as unset, so the original claim's bound fails there (see the
counterexample). -/
theorem c2_amended_bounded_concurrency (info : DeviceInfo) (s : Eng)
    (hr : Reachable info s) :
    (∀ m, s.maxActiveReqs = some m → 0 < m → s.activeReqs ≤ m)
    ∧ (∀ i m, s.maxActiveReqs = some m → 0 < m → MaxLe (step s i).1 m)
    ∧ (∀ rid rep r, s.inflight = some (Inflight.init rid) →
        heapGet s.heap rid = some r → 0 < s.activeReqs →
        rep.status = ProtoStatus.busy →
        (step s (Input.finish (XferResult.rep rep))).1.maxActiveReqs = some s.activeReqs
        ∧ (step s (Input.finish (XferResult.rep rep))).1.reqQueue = rid :: s.reqQueue) := by
  have hinv := inv_reachable hr
  refine ⟨hinv.2.1, ?_, ?_⟩
  · intro i m hm hpos
    exact step_max s i m hinv hm hpos
  · intro rid rep r hfl hheap hact hst
    obtain ⟨st, pid, sz, res⟩ := rep
    dsimp only at hst
    subst hst
    unfold step
    dsimp only
    unfold finishStep
    rw [hfl]
    dsimp only
    unfold initCont
    rw [show heapGet ({ s with busy := false, inflight := none } : Eng).heap rid = some r
      from hheap]
    dsimp only
    rw [andProcess_fst]
    constructor
    · exact (process_gateBlocked _ s.activeReqs (by rfl) (by omega)
        (by exact le_refl s.activeReqs) (by show s.activeReqs ≠ 0; omega)).1
    · exact (process_gateBlocked _ s.activeReqs (by rfl) (by omega)
        (by exact le_refl s.activeReqs) (by show s.activeReqs ≠ 0; omega)).2

/-- Witness for the amended C2: the caller-capped open handle respects its
cap of 3 and no step raises it; and from the state with one active request
and an INIT in flight, a BUSY reply records the cap 1 and re-queues the
request at the head. -/
theorem c2_amended_bounded_concurrency_witness :
    sOpenCap.activeReqs ≤ 3
    ∧ MaxLe (step sOpenCap (Input.submit 40 none false true)).1 3
    ∧ (step sBusyInit
        (Input.finish (XferResult.rep
          { status := ProtoStatus.busy, id := 0, size := 0, result := 0 }))).1.maxActiveReqs
        = some sBusyInit.activeReqs
    ∧ (step sBusyInit
        (Input.finish (XferResult.rep
          { status := ProtoStatus.busy, id := 0, size := 0, result := 0 }))).1.reqQueue
        = 2 :: sBusyInit.reqQueue :=
  ⟨(c2_amended_bounded_concurrency info0 sOpenCap (run_reachable info0 openCapTrace)).1 3
      (by decide) (by decide),
   (c2_amended_bounded_concurrency info0 sOpenCap (run_reachable info0 openCapTrace)).2.1
      (Input.submit 40 none false true) 3 (by decide) (by decide),
   ((c2_amended_bounded_concurrency info0 sBusyInit
      (run_reachable info0 busyWitnessTrace)).2.2 2
      { status := ProtoStatus.busy, id := 0, size := 0, result := 0 }
      { rtype := 41, dataLen := none, dataIsStr := false, dataSent := false,
        protoId := none, checkCount := 0, reqTimer := true, done := false }
      (by decide) (by decide) (by decide) rfl).1,
   ((c2_amended_bounded_concurrency info0 sBusyInit
      (run_reachable info0 busyWitnessTrace)).2.2 2
      { status := ProtoStatus.busy, id := 0, size := 0, result := 0 }
      { rtype := 41, dataLen := none, dataIsStr := false, dataSent := false,
        protoId := none, checkCount := 0, reqTimer := true, done := false }
      (by decide) (by decide) (by decide) rfl).2⟩

/-- C4 (amended): in every reachable `CLOSED` state the device-ID and
firmware-version accessors return `null`; the device-type and DFU-mode
accessors return the static device-info record's values (never `null`) in
every state. The restriction to `CLOSED` and the carve-out for the static
accessors are the amendment: during `OPENING` and `CLOSING` the identity
fields can still be populated, and `type`/`isInDfuMode` never were
lifecycle-dependent (see the counterexample). -/
theorem c4_amended_identity_null_when_closed (info : DeviceInfo) (s : Eng)
    (hr : Reachable info s) (hcl : s.dstate = DevState.closed) :
    idGetter s = none ∧ firmwareVersionGetter s = none
    ∧ typeGetter s = some s.info.dtype ∧ isInDfuModeGetter s = some s.info.dfu := by
  have hinv := inv_reachable hr
  exact ⟨(hinv.2.2.2.2 hcl).1, (hinv.2.2.2.2 hcl).2, rfl, rfl⟩

/-- Witness for the amended C4 on a handle that was opened and then
closed again. -/
theorem c4_amended_identity_null_when_closed_witness :
    idGetter (run (mkDevice info0) (openTrace ++ [Input.closeCall true false])).1 = none
    ∧ firmwareVersionGetter
        (run (mkDevice info0) (openTrace ++ [Input.closeCall true false])).1 = none
    ∧ typeGetter (run (mkDevice info0) (openTrace ++ [Input.closeCall true false])).1
        = some (run (mkDevice info0) (openTrace ++ [Input.closeCall true false])).1.info.dtype
    ∧ isInDfuModeGetter (run (mkDevice info0) (openTrace ++ [Input.closeCall true false])).1
        = some (run (mkDevice info0)
            (openTrace ++ [Input.closeCall true false])).1.info.dfu :=
  c4_amended_identity_null_when_closed info0 _
    (run_reachable info0 (openTrace ++ [Input.closeCall true false])) (by decide)

/-- `_process` never changes the request-id counter. -/
theorem process_lastReqId (x : Eng) : (process x).1.lastReqId = x.lastReqId := by
  unfold process closeCheck
  split
  next => rfl
  next =>
    dsimp only
    split
    next =>
      split
      next => rfl
      next =>
        split
        next => rfl
        next =>
          split
          next => rfl
          next =>
            try dsimp only
            split
            next =>
              split
              next => exact (closeInternal_spec _ _).2.2.2.2.2.2.2.1
              next => rfl
            next =>
              split
              next =>
                split
                next => rfl
                next =>
                  split
                  next => exact (closeInternal_spec _ _).2.2.2.2.2.2.2.1
                  next => rfl
              next =>
                split
                next => exact (closeInternal_spec _ _).2.2.2.2.2.2.2.1
                next => rfl
    next =>
      split
      next => rfl
      next =>
        split
        next => rfl
        next =>
          split
          next => rfl
          next =>
            try dsimp only
            split
            next =>
              split
              next => exact (closeInternal_spec _ _).2.2.2.2.2.2.2.1
              next => rfl
            next =>
              split
              next =>
                split
                next => rfl
                next =>
                  split
                  next => exact (closeInternal_spec _ _).2.2.2.2.2.2.2.1
                  next => rfl
              next =>
                split
                next => exact (closeInternal_spec _ _).2.2.2.2.2.2.2.1
                next => rfl

/-- C6: with the handle open and no close wanted, `sendRequest` rejects
synchronously with `DeviceError` — leaving the engine state untouched and
performing no USB transfer — exactly when the request type is negative or
above `MAX_REQUEST_TYPE`, or the payload length exceeds
`MAX_PAYLOAD_SIZE`; an in-bounds submission is never rejected this way. -/
theorem c6_submission_validation (s : Eng) (ty : Int) (dataLen : Option Nat)
    (dataIsStr timeoutArmed : Bool)
    (hs : s.dstate = DevState.opened) (hw : s.wantClose = false) :
    (∃ msg, step s (Input.submit ty dataLen dataIsStr timeoutArmed)
        = (s, [Output.submitRejected (ErrKind.deviceErr msg)]))
    ↔ (ty < 0 ∨ ty > MAX_REQUEST_TYPE
        ∨ ∃ n, dataLen = some n ∧ n > MAX_PAYLOAD_SIZE) := by
  have hc1 : ¬(s.dstate = DevState.closed) := by
    rw [hs]
    exact fun h => DevState.noConfusion h
  have hc2 : ¬(s.dstate = DevState.closing ∨ s.wantClose = true) := by
    rw [hs, hw]
    rintro (h | h)
    · exact DevState.noConfusion h
    · exact Bool.noConfusion h
  constructor
  · rintro ⟨msg, hmsg⟩
    by_cases h1 : ty < 0 ∨ ty > MAX_REQUEST_TYPE
    · rcases h1 with h1 | h1
      · exact Or.inl h1
      · exact Or.inr (Or.inl h1)
    · by_cases h2 : ∃ n, dataLen = some n ∧ n > MAX_PAYLOAD_SIZE
      · exact Or.inr (Or.inr h2)
      · exfalso
        unfold step at hmsg
        dsimp only at hmsg
        rw [if_neg hc1, if_neg hc2, if_neg h1] at hmsg
        split at hmsg
        next hmt =>
          cases dataLen with
          | none => exact Bool.noConfusion hmt
          | some n =>
            rw [decide_eq_true_iff] at hmt
            exact h2 ⟨n, rfl, hmt⟩
        next hmt =>
          have hlast := congrArg (fun p => p.1.lastReqId) hmsg
          dsimp only at hlast
          rw [andProcess_fst, process_lastReqId] at hlast
          dsimp only at hlast
          omega
  · intro h
    by_cases h1 : ty < 0 ∨ ty > MAX_REQUEST_TYPE
    · refine ⟨"Invalid request type", ?_⟩
      unfold step
      dsimp only
      rw [if_neg hc1, if_neg hc2, if_pos h1]
    · rcases h with h | h | h2
      · exact absurd (Or.inl h) h1
      · exact absurd (Or.inr h) h1
      · obtain ⟨n, hn, hgt⟩ := h2
        refine ⟨"Request data is too large", ?_⟩
        unfold step
        dsimp only
        rw [if_neg hc1, if_neg hc2, if_neg h1, if_pos (by rw [hn]; simpa using hgt)]

/-- Witness for C6: on the open idle handle, submitting type 70000 is
rejected with `DeviceError`, and an in-bounds submission is not. -/
theorem c6_submission_validation_witness :
    (∃ msg, step sOpen (Input.submit 70000 none false true)
        = (sOpen, [Output.submitRejected (ErrKind.deviceErr msg)]))
    ∧ ¬(∃ msg, step sOpen (Input.submit 40 (some 16) false true)
        = (sOpen, [Output.submitRejected (ErrKind.deviceErr msg)])) :=
  ⟨(c6_submission_validation sOpen 70000 none false true (by decide) (by decide)).mpr
      (Or.inr (Or.inl (by decide))),
   fun hx => by
     rcases (c6_submission_validation sOpen 40 (some 16) false true (by decide)
       (by decide)).mp hx with h | h | ⟨n, hn, hgt⟩
     · exact absurd h (by decide)
     · exact absurd h (by decide)
     · rw [Option.some.injEq] at hn
       subst hn
       exact absurd hgt (by decide)⟩

/-- `heapGet` distributes over a cons cell. -/
theorem heapGet_cons (k : Nat) (v : Req) (t : List (Nat × Req)) (rid : Nat) :
    heapGet ((k, v) :: t) rid = if rid = k then some v else heapGet t rid := by
  by_cases h : rid = k
  · simp [heapGet, List.lookup, h]
  · have hb : (rid == k) = false := beq_eq_false_iff_ne.mpr h
    simp [heapGet, List.lookup, hb, h]

/-- Updating one heap slot leaves lookups of the other slots unchanged. -/
theorem heapGet_heapSet_ne (t : List (Nat × Req)) (rid rid' : Nat) (r : Req)
    (hne : rid' ≠ rid) :
    heapGet (heapSet t rid' r) rid = heapGet t rid := by
  induction t with
  | nil => rfl
  | cons p t ih =>
    obtain ⟨k, v⟩ := p
    have hmap : heapSet ((k, v) :: t) rid' r
        = (if k = rid' then (rid', r) else (k, v)) :: heapSet t rid' r := rfl
    rw [hmap]
    by_cases hk : k = rid'
    · rw [if_pos hk, heapGet_cons, heapGet_cons, if_neg (fun h => hne h.symm), hk,
          if_neg (fun h => hne h.symm)]
      exact ih
    · rw [if_neg hk, heapGet_cons, heapGet_cons]
      by_cases hr : rid = k
      · rw [if_pos hr, if_pos hr]
      · rw [if_neg hr, if_neg hr]
        exact ih

/-- Updating a present heap slot stores the new record. -/
theorem heapGet_heapSet_self (t : List (Nat × Req)) (rid : Nat) (r0 r : Req)
    (h : heapGet t rid = some r0) :
    heapGet (heapSet t rid r) rid = some r := by
  induction t with
  | nil => exact Option.noConfusion h
  | cons p t ih =>
    obtain ⟨k, v⟩ := p
    have hmap : heapSet ((k, v) :: t) rid r
        = (if k = rid then (rid, r) else (k, v)) :: heapSet t rid r := rfl
    rw [hmap]
    by_cases hk : k = rid
    · rw [if_pos hk, heapGet_cons, if_pos rfl]
    · rw [if_neg hk, heapGet_cons, if_neg (fun hh => hk hh.symm)]
      rw [heapGet_cons, if_neg (fun hh => hk hh.symm)] at h
      exact ih h

/-- A present heap entry survives appending fresh entries: `lookup` finds
the leftmost binding, mirroring the identity of the captured object in the
source even if an id were reused. -/
theorem heapGet_append_some (t l : List (Nat × Req)) (rid : Nat) (r : Req)
    (h : heapGet t rid = some r) :
    heapGet (t ++ l) rid = some r := by
  induction t with
  | nil => exact Option.noConfusion h
  | cons p t ih =>
    obtain ⟨k, v⟩ := p
    rw [List.cons_append, heapGet_cons]
    rw [heapGet_cons] at h
    by_cases hr : rid = k
    · rw [if_pos hr]
      rw [if_pos hr] at h
      exact h
    · rw [if_neg hr]
      rw [if_neg hr] at h
      exact ih h

/-- A request returned by the dequeue loop is present in the heap and not
`done`. -/
theorem dequeueNotDone_some (h : List (Nat × Req)) (q : List Nat) :
    ∀ (q' : List Nat) (rid : Nat), dequeueNotDone h q = (q', some rid) →
    ∃ r, heapGet h rid = some r ∧ r.done = false := by
  induction q with
  | nil =>
    intro q' rid heq
    exact Option.noConfusion (congrArg Prod.snd heq)
  | cons rid0 rest ih =>
    intro q' rid heq
    unfold dequeueNotDone at heq
    rcases hg : heapGet h rid0 with _ | r0
    · rw [hg] at heq
      exact ih q' rid heq
    · rw [hg] at heq
      dsimp only at heq
      by_cases hd : r0.done = true
      · rw [if_pos hd] at heq
        exact ih q' rid heq
      · rw [if_neg hd] at heq
        have h1 := congrArg Prod.snd heq
        dsimp only at h1
        have h2 : rid0 = rid := Option.some.inj h1
        subst h2
        refine ⟨r0, hg, ?_⟩
        revert hd
        cases r0.done <;> simp

/-- Orphanhood only reads the heap slot, the reset queue and the in-flight
operation, so it transfers along agreement of those three components. -/
theorem orph_transfer (s t : Eng) (rid : Nat) (h : Orphaned s rid)
    (hh : heapGet t.heap rid = heapGet s.heap rid)
    (hq : t.resetQueue = s.resetQueue)
    (hf : t.inflight = s.inflight) :
    Orphaned t rid := by
  obtain ⟨⟨rr, hrr, hdd, hpp⟩, hq0, hf0⟩ := h
  refine ⟨⟨rr, ?_, hdd, hpp⟩, ?_, ?_⟩
  · rw [hh]
    exact hrr
  · rw [hq]
    exact hq0
  · rw [hf]
    exact hf0

/-- `_clearRequest` on another request keeps `rid` orphaned. -/
theorem orph_clearRequest (s : Eng) (rid rid' : Nat) (hne : rid' ≠ rid)
    (h : Orphaned s rid) :
    Orphaned (clearRequest s rid') rid := by
  unfold clearRequest
  rcases hg : heapGet s.heap rid' with _ | r
  · exact h
  · dsimp only
    exact orph_transfer s _ rid h (heapGet_heapSet_ne s.heap rid rid' _ hne) rfl rfl

/-- `_rejectRequest` keeps an orphaned request orphaned and issues no
transfer for it (on the orphan itself it is a no-op, since the orphan is
`done`). -/
theorem orph_rejectRequest (s : Eng) (rid rid' : Nat) (e : ErrKind) (h : Orphaned s rid) :
    KeepsOrphan rid (rejectRequest s rid' e) := by
  unfold rejectRequest
  rcases hg : heapGet s.heap rid' with _ | r
  · exact ⟨h, fun o ho => absurd ho (List.not_mem_nil o)⟩
  · dsimp only
    by_cases hd : r.done = true
    · rw [if_pos hd]
      exact ⟨h, fun o ho => absurd ho (List.not_mem_nil o)⟩
    · rw [if_neg hd]
      have hne : rid' ≠ rid := by
        intro hk
        subst hk
        obtain ⟨⟨r0, hr0, hd0, _⟩, _, _⟩ := h
        rw [hr0] at hg
        exact hd (Option.some.inj hg ▸ hd0)
      have h1 := orph_clearRequest s rid rid' hne h
      try dsimp only
      constructor
      · rcases hp : r.protoId with _ | p
        · exact h1
        · dsimp only
          by_cases hpz : p ≠ 0
          · rw [if_pos hpz]
            obtain ⟨hh1, hq1, hf1⟩ := h1
            refine ⟨hh1, ?_, hf1⟩
            intro hc
            rcases List.mem_append.mp hc with hc | hc
            · exact hq1 hc
            · exact hne (List.mem_singleton.mp hc).symm
          · rw [if_neg hpz]
            exact h1
      · intro o ho
        rw [List.mem_singleton] at ho
        subst ho
        rfl

/-- `_resolveRequest` keeps an orphaned request orphaned and issues no
transfer for it. -/
theorem orph_resolveRequest (s : Eng) (rid rid' : Nat) (result : Int)
    (h : Orphaned s rid) :
    KeepsOrphan rid (resolveRequest s rid' result) := by
  unfold resolveRequest
  rcases hg : heapGet s.heap rid' with _ | r
  · exact ⟨h, fun o ho => absurd ho (List.not_mem_nil o)⟩
  · dsimp only
    by_cases hd : r.done = true
    · rw [if_pos hd]
      exact ⟨h, fun o ho => absurd ho (List.not_mem_nil o)⟩
    · rw [if_neg hd]
      have hne : rid' ≠ rid := by
        intro hk
        subst hk
        obtain ⟨⟨r0, hr0, hd0, _⟩, _, _⟩ := h
        rw [hr0] at hg
        exact hd (Option.some.inj hg ▸ hd0)
      have h1 := orph_clearRequest s rid rid' hne h
      have h2 : Orphaned { clearRequest s rid' with
          activeReqs := (clearRequest s rid').activeReqs - 1 } rid :=
        orph_transfer _ _ rid h1 rfl rfl rfl
      try dsimp only
      split
      · exact ⟨h2, fun o ho => absurd ho (List.not_mem_nil o)⟩
      · refine ⟨h2, ?_⟩
        intro o ho
        rw [List.mem_singleton] at ho
        subst ho
        rfl

/-- `_startCheckTimer` on another request keeps `rid` orphaned. -/
theorem orph_startCheckTimer (s : Eng) (rid rid' : Nat) (hne : rid' ≠ rid)
    (h : Orphaned s rid) :
    Orphaned (startCheckTimer s rid') rid := by
  unfold startCheckTimer
  rcases hg : heapGet s.heap rid' with _ | r
  · exact h
  · dsimp only
    exact orph_transfer s _ rid h (heapGet_heapSet_ne s.heap rid rid' _ hne) rfl rfl

/-- The rejection fold of `_rejectAllRequests` keeps `rid` orphaned and
adds no transfer for it. -/
theorem orph_rejectAllFold (e : ErrKind) (rid : Nat) (ids : List Nat) :
    ∀ (s : Eng) (outs : List Output), Orphaned s rid →
    (∀ o ∈ outs, mentionsRid rid o = false) →
    KeepsOrphan rid (ids.foldl
      (fun acc rid' => ((rejectRequest acc.1 rid' e).1, acc.2 ++ (rejectRequest acc.1 rid' e).2))
      (s, outs)) := by
  induction ids with
  | nil =>
    intro s outs h houts
    exact ⟨h, houts⟩
  | cons rid0 rest ih =>
    intro s outs h houts
    rw [List.foldl_cons]
    have hr := orph_rejectRequest s rid rid0 e h
    have happ : ∀ o ∈ outs ++ (rejectRequest s rid0 e).2, mentionsRid rid o = false := by
      intro o ho
      rcases List.mem_append.mp ho with ho | ho
      · exact houts o ho
      · exact hr.2 o ho
    exact ih (rejectRequest s rid0 e).1 (outs ++ (rejectRequest s rid0 e).2) hr.1 happ

/-- `_rejectAllRequests` keeps `rid` orphaned and adds no transfer for
it. -/
theorem orph_rejectAllRequests (s : Eng) (e : ErrKind) (rid : Nat)
    (h : Orphaned s rid) :
    KeepsOrphan rid (rejectAllRequests s e) := by
  have hfold := orph_rejectAllFold e rid s.reqsMap s [] h
    (fun o ho => absurd ho (List.not_mem_nil o))
  obtain ⟨⟨rr, hrr, hdd, hpp⟩, hq1, hf1⟩ := hfold.1
  have houts := hfold.2
  unfold rejectAllRequests
  dsimp only
  constructor
  · split
    · exact ⟨⟨rr, hrr, hdd, hpp⟩, List.not_mem_nil rid, hf1⟩
    · exact ⟨⟨rr, hrr, hdd, hpp⟩, List.not_mem_nil rid, hf1⟩
  · exact houts

/-- `_close` keeps `rid` orphaned and adds no transfer for it. -/
theorem orph_closeInternal (s : Eng) (e : Option ErrKind) (rid : Nat)
    (h : Orphaned s rid) :
    KeepsOrphan rid (closeInternal s e) := by
  unfold closeInternal
  by_cases hm : s.reqsMap.isEmpty = true
  · rw [if_pos hm]
    dsimp only
    refine ⟨orph_transfer s _ rid h rfl rfl rfl, ?_⟩
    intro o ho
    rw [List.nil_append] at ho
    split at ho
    · rw [List.mem_singleton] at ho
      subst ho
      rfl
    · exact absurd ho (List.not_mem_nil o)
  · rw [if_neg hm]
    have hra := orph_rejectAllRequests s (e.getD (ErrKind.stateErr "Device has been closed")) rid h
    rcases hrr : rejectAllRequests s (e.getD (ErrKind.stateErr "Device has been closed"))
      with ⟨s1, outs⟩
    rw [hrr] at hra
    dsimp only
    refine ⟨orph_transfer s1 _ rid hra.1 rfl rfl rfl, ?_⟩
    intro o ho
    rcases List.mem_append.mp ho with ho | ho
    · exact hra.2 o ho
    · split at ho
      · rw [List.mem_singleton] at ho
        subst ho
        rfl
      · exact absurd ho (List.not_mem_nil o)

/-- The close check at the tail of `_process` keeps `rid` orphaned and
adds no transfer for it. -/
theorem orph_closeCheck (s : Eng) (rid : Nat) (h : Orphaned s rid) :
    KeepsOrphan rid (closeCheck s) := by
  unfold closeCheck
  split
  · exact orph_closeInternal s none rid h
  · exact ⟨h, fun o ho => absurd ho (List.not_mem_nil o)⟩

/-- `_process` keeps `rid` orphaned and never issues a transfer for it:
the dequeue loops skip `done` requests, the orphan is in no queue slot
that reaches the device, and it is never the in-flight operation. -/
theorem orph_process (s : Eng) (rid : Nat) (h : Orphaned s rid) :
    KeepsOrphan rid (process s) := by
  obtain ⟨hH, hQ, hF⟩ := h
  unfold process
  split
  next => exact ⟨⟨hH, hQ, hF⟩, fun o ho => absurd ho (List.not_mem_nil o)⟩
  next =>
    dsimp only
    split
    next =>
      split
      next =>
        refine ⟨⟨hH, hQ, rfl⟩, ?_⟩
        intro o ho
        rw [List.mem_singleton] at ho
        subst ho
        rfl
      next =>
        split
        next rid' rest heq =>
          try dsimp only
          have hmem : rid ∉ rid' :: rest := by
            rw [← heq]
            exact hQ
          have hne2 : rid' ≠ rid := by
            intro hh
            subst hh
            exact hmem (List.mem_cons_self rid' rest)
          have hrest : rid ∉ rest := fun hh => hmem (List.mem_cons_of_mem rid' hh)
          refine ⟨⟨hH, hrest, ?_⟩, ?_⟩
          · show decide (rid' = rid) = false
            exact decide_eq_false hne2
          · intro o ho
            rw [List.mem_singleton] at ho
            subst ho
            show decide (rid' = rid) = false
            exact decide_eq_false hne2
        next heq =>
          split
          next cq rid' heq2 =>
            try dsimp only
            obtain ⟨r', hr', hd'⟩ := dequeueNotDone_some _ _ _ _ heq2
            have hne2 : rid' ≠ rid := by
              intro hh
              subst hh
              obtain ⟨r0, hr0, hd0, _⟩ := hH
              rw [hr0] at hr'
              rw [Option.some.inj hr'] at hd0
              rw [hd0] at hd'
              exact Bool.noConfusion hd'
            refine ⟨⟨hH, hQ, ?_⟩, ?_⟩
            · show decide (rid' = rid) = false
              exact decide_eq_false hne2
            · intro o ho
              rw [List.mem_singleton] at ho
              subst ho
              show decide (rid' = rid) = false
              exact decide_eq_false hne2
          next cq heq2 =>
            try dsimp only
            split
            next =>
              exact orph_closeCheck _ rid ⟨hH, hQ, hF⟩
            next =>
              split
              next rq rid' heq3 =>
                obtain ⟨r', hr', hd'⟩ := dequeueNotDone_some _ _ _ _ heq3
                have hne2 : rid' ≠ rid := by
                  intro hh
                  subst hh
                  obtain ⟨r0, hr0, hd0, _⟩ := hH
                  rw [hr0] at hr'
                  rw [Option.some.inj hr'] at hd0
                  rw [hd0] at hd'
                  exact Bool.noConfusion hd'
                split
                next r heq4 =>
                  try dsimp only
                  refine ⟨⟨hH, hQ, ?_⟩, ?_⟩
                  · show decide (rid' = rid) = false
                    exact decide_eq_false hne2
                  · intro o ho
                    rw [List.mem_singleton] at ho
                    subst ho
                    show decide (rid' = rid) = false
                    exact decide_eq_false hne2
                next heq4 =>
                  exact orph_closeCheck _ rid ⟨hH, hQ, hF⟩
              next rq heq3 =>
                exact orph_closeCheck _ rid ⟨hH, hQ, hF⟩
    next =>
      split
      next =>
        refine ⟨⟨hH, hQ, rfl⟩, ?_⟩
        intro o ho
        rw [List.mem_singleton] at ho
        subst ho
        rfl
      next =>
        split
        next rid' rest heq =>
          try dsimp only
          have hmem : rid ∉ rid' :: rest := by
            rw [← heq]
            exact hQ
          have hne2 : rid' ≠ rid := by
            intro hh
            subst hh
            exact hmem (List.mem_cons_self rid' rest)
          have hrest : rid ∉ rest := fun hh => hmem (List.mem_cons_of_mem rid' hh)
          refine ⟨⟨hH, hrest, ?_⟩, ?_⟩
          · show decide (rid' = rid) = false
            exact decide_eq_false hne2
          · intro o ho
            rw [List.mem_singleton] at ho
            subst ho
            show decide (rid' = rid) = false
            exact decide_eq_false hne2
        next heq =>
          split
          next cq rid' heq2 =>
            try dsimp only
            obtain ⟨r', hr', hd'⟩ := dequeueNotDone_some _ _ _ _ heq2
            have hne2 : rid' ≠ rid := by
              intro hh
              subst hh
              obtain ⟨r0, hr0, hd0, _⟩ := hH
              rw [hr0] at hr'
              rw [Option.some.inj hr'] at hd0
              rw [hd0] at hd'
              exact Bool.noConfusion hd'
            refine ⟨⟨hH, hQ, ?_⟩, ?_⟩
            · show decide (rid' = rid) = false
              exact decide_eq_false hne2
            · intro o ho
              rw [List.mem_singleton] at ho
              subst ho
              show decide (rid' = rid) = false
              exact decide_eq_false hne2
          next cq heq2 =>
            try dsimp only
            split
            next =>
              exact orph_closeCheck _ rid ⟨hH, hQ, hF⟩
            next =>
              split
              next rq rid' heq3 =>
                obtain ⟨r', hr', hd'⟩ := dequeueNotDone_some _ _ _ _ heq3
                have hne2 : rid' ≠ rid := by
                  intro hh
                  subst hh
                  obtain ⟨r0, hr0, hd0, _⟩ := hH
                  rw [hr0] at hr'
                  rw [Option.some.inj hr'] at hd0
                  rw [hd0] at hd'
                  exact Bool.noConfusion hd'
                split
                next r heq4 =>
                  try dsimp only
                  refine ⟨⟨hH, hQ, ?_⟩, ?_⟩
                  · show decide (rid' = rid) = false
                    exact decide_eq_false hne2
                  · intro o ho
                    rw [List.mem_singleton] at ho
                    subst ho
                    show decide (rid' = rid) = false
                    exact decide_eq_false hne2
                next heq4 =>
                  exact orph_closeCheck _ rid ⟨hH, hQ, hF⟩
              next rq heq3 =>
                exact orph_closeCheck _ rid ⟨hH, hQ, hF⟩

/-- Re-entering `_process` after an event preserves orphanhood and adds no
transfer for `rid` to clean outputs. -/
theorem orph_andProcess (x : Eng) (outs : List Output) (rid : Nat) (h : Orphaned x rid)
    (houts : ∀ o ∈ outs, mentionsRid rid o = false) :
    KeepsOrphan rid (andProcess x outs) := by
  have hp := orph_process x rid h
  unfold andProcess
  rcases hpr : process x with ⟨s', os'⟩
  rw [hpr] at hp
  dsimp only
  refine ⟨hp.1, ?_⟩
  intro o ho
  rcases List.mem_append.mp ho with ho | ho
  · exact houts o ho
  · exact hp.2 o ho

/-- Rejecting any request and re-processing keeps `rid` orphaned. -/
theorem orph_rejectAndProcess (x : Eng) (rid' : Nat) (e : ErrKind) (rid : Nat)
    (h : Orphaned x rid) :
    KeepsOrphan rid (match rejectRequest x rid' e with | (s, os) => andProcess s os) := by
  have hr := orph_rejectRequest x rid rid' e h
  rcases hrr : rejectRequest x rid' e with ⟨s1, os1⟩
  rw [hrr] at hr
  dsimp only
  exact orph_andProcess s1 os1 rid hr.1 hr.2

/-- Resolving any request and re-processing keeps `rid` orphaned. -/
theorem orph_resolveAndProcess (x : Eng) (rid' : Nat) (result : Int) (rid : Nat)
    (h : Orphaned x rid) :
    KeepsOrphan rid (match resolveRequest x rid' result with | (s, os) => andProcess s os) := by
  have hr := orph_resolveRequest x rid rid' result h
  rcases hrr : resolveRequest x rid' result with ⟨s1, os1⟩
  rw [hrr] at hr
  dsimp only
  exact orph_andProcess s1 os1 rid hr.1 hr.2

/-- Arming another request's polling timer and re-processing keeps `rid`
orphaned. -/
theorem orph_startCheckAndProcess (x : Eng) (rid' : Nat) (rid : Nat) (hne : rid' ≠ rid)
    (h : Orphaned x rid) :
    KeepsOrphan rid (andProcess (startCheckTimer x rid') []) :=
  orph_andProcess _ [] rid (orph_startCheckTimer x rid rid' hne h)
    (fun o ho => absurd ho (List.not_mem_nil o))

/-- The INIT continuation for another request keeps `rid` orphaned and
issues no transfer for it. -/
theorem orph_initCont (s0 : Eng) (rid0 : Nat) (rep : ServiceReply) (rid : Nat)
    (hne : rid0 ≠ rid) (h : Orphaned s0 rid) :
    KeepsOrphan rid (initCont s0 rid0 rep) := by
  obtain ⟨st, pid, sz, res⟩ := rep
  unfold initCont
  split
  next => exact orph_andProcess s0 [] rid h (fun o ho => absurd ho (List.not_mem_nil o))
  next r0 heq =>
    have hA : Orphaned { s0 with
        heap := heapSet s0.heap rid0 { r0 with protoId := some pid },
        activeReqs := s0.activeReqs + 1 } rid :=
      orph_transfer s0 _ rid h (heapGet_heapSet_ne s0.heap rid rid0 _ hne) rfl rfl
    cases st with
    | ok =>
      dsimp only
      rw [if_pos (Or.inl rfl : ProtoStatus.ok = ProtoStatus.ok
            ∨ ProtoStatus.ok = ProtoStatus.pending),
          if_pos (Or.inl rfl : ProtoStatus.ok = ProtoStatus.ok
            ∨ ProtoStatus.ok = ProtoStatus.pending)]
      split
      next =>
        refine ⟨⟨hA.1, hA.2.1, ?_⟩, ?_⟩
        · show decide (rid0 = rid) = false
          exact decide_eq_false hne
        · intro o ho
          rw [List.mem_singleton] at ho
          subst ho
          show decide (rid0 = rid) = false
          exact decide_eq_false hne
      next =>
        refine orph_startCheckAndProcess _ rid0 rid hne ?_
        exact orph_transfer _ _ rid hA (heapGet_heapSet_ne _ rid rid0 _ hne) rfl rfl
    | pending =>
      dsimp only
      rw [if_pos (Or.inr rfl : ProtoStatus.pending = ProtoStatus.ok
            ∨ ProtoStatus.pending = ProtoStatus.pending),
          if_pos (Or.inr rfl : ProtoStatus.pending = ProtoStatus.ok
            ∨ ProtoStatus.pending = ProtoStatus.pending)]
      split
      next => exact orph_rejectAndProcess _ rid0 _ rid hA
      next => exact orph_startCheckAndProcess _ rid0 rid hne hA
    | busy =>
      dsimp only
      refine orph_andProcess _ [] rid ?_ (fun o ho => absurd ho (List.not_mem_nil o))
      exact orph_transfer s0 _ rid h rfl rfl rfl
    | noMemory =>
      dsimp only
      exact orph_rejectAndProcess _ rid0 _ rid (orph_transfer s0 _ rid h rfl rfl rfl)
    | notFound =>
      dsimp only
      exact orph_rejectAndProcess _ rid0 _ rid (orph_transfer s0 _ rid h rfl rfl rfl)
    | other code =>
      dsimp only
      exact orph_rejectAndProcess _ rid0 _ rid (orph_transfer s0 _ rid h rfl rfl rfl)

/-- The CHECK continuation for another request keeps `rid` orphaned and
issues no transfer for it. -/
theorem orph_checkCont (s0 : Eng) (rid0 : Nat) (rep : ServiceReply) (rid : Nat)
    (hne : rid0 ≠ rid) (h : Orphaned s0 rid) :
    KeepsOrphan rid (checkCont s0 rid0 rep) := by
  unfold checkCont
  split
  next => exact orph_andProcess s0 [] rid h (fun o ho => absurd ho (List.not_mem_nil o))
  next r heq =>
    split
    · split
      next =>
        split
        next =>
          refine ⟨⟨h.1, h.2.1, ?_⟩, ?_⟩
          · show decide (rid0 = rid) = false
            exact decide_eq_false hne
          · intro o ho
            rw [List.mem_singleton] at ho
            subst ho
            show decide (rid0 = rid) = false
            exact decide_eq_false hne
        next => exact orph_resolveAndProcess _ rid0 _ rid h
      next =>
        refine ⟨⟨h.1, h.2.1, ?_⟩, ?_⟩
        · show decide (rid0 = rid) = false
          exact decide_eq_false hne
        · intro o ho
          rw [List.mem_singleton] at ho
          subst ho
          show decide (rid0 = rid) = false
          exact decide_eq_false hne
    · exact orph_startCheckAndProcess _ rid0 rid hne h
    · exact orph_rejectAndProcess _ rid0 _ rid h
    · exact orph_rejectAndProcess _ rid0 _ rid h
    · exact orph_rejectAndProcess _ rid0 _ rid h

/-- Completing the in-flight transfer keeps `rid` orphaned and issues no
transfer for it. -/
theorem orph_finishStep (s : Eng) (res : XferResult) (rid : Nat) (h : Orphaned s rid) :
    KeepsOrphan rid (finishStep s res) := by
  obtain ⟨hH, hQ, hF⟩ := h
  unfold finishStep
  split
  next => exact ⟨⟨hH, hQ, hF⟩, fun o ho => absurd ho (List.not_mem_nil o)⟩
  next fl hfl =>
    rw [hfl] at hF
    have h0 : Orphaned { s with busy := false, inflight := none } rid := ⟨hH, hQ, rfl⟩
    cases fl with
    | resetAll =>
      try dsimp only
      refine orph_andProcess _ [] rid ?_ (fun o ho => absurd ho (List.not_mem_nil o))
      exact orph_transfer _ _ rid h0 rfl rfl rfl
    | resetOne rid0 =>
      try dsimp only
      refine orph_andProcess _ [] rid ?_ (fun o ho => absurd ho (List.not_mem_nil o))
      exact orph_transfer _ _ rid h0 rfl rfl rfl
    | init rid0 =>
      have hne : rid0 ≠ rid := by
        intro hh
        subst hh
        simp [inflightFor] at hF
      cases res with
      | rep rep =>
        try dsimp only
        exact orph_initCont _ rid0 rep rid hne h0
      | outOk =>
        try dsimp only
        exact orph_rejectAndProcess _ rid0 _ rid h0
      | failed =>
        try dsimp only
        exact orph_rejectAndProcess _ rid0 _ rid h0
    | initSend rid0 =>
      have hne : rid0 ≠ rid := by
        intro hh
        subst hh
        simp [inflightFor] at hF
      cases res with
      | failed =>
        try dsimp only
        exact orph_rejectAndProcess _ rid0 _ rid h0
      | rep rep =>
        try dsimp only
        split
        next r heq2 =>
          refine orph_startCheckAndProcess _ rid0 rid hne ?_
          exact orph_transfer _ _ rid h0 (heapGet_heapSet_ne _ rid rid0 _ hne) rfl rfl
        next heq2 =>
          exact orph_andProcess _ [] rid h0 (fun o ho => absurd ho (List.not_mem_nil o))
      | outOk =>
        try dsimp only
        split
        next r heq2 =>
          refine orph_startCheckAndProcess _ rid0 rid hne ?_
          exact orph_transfer _ _ rid h0 (heapGet_heapSet_ne _ rid rid0 _ hne) rfl rfl
        next heq2 =>
          exact orph_andProcess _ [] rid h0 (fun o ho => absurd ho (List.not_mem_nil o))
    | check rid0 =>
      have hne : rid0 ≠ rid := by
        intro hh
        subst hh
        simp [inflightFor] at hF
      cases res with
      | rep rep =>
        try dsimp only
        exact orph_checkCont _ rid0 rep rid hne h0
      | outOk =>
        try dsimp only
        exact orph_rejectAndProcess _ rid0 _ rid h0
      | failed =>
        try dsimp only
        exact orph_rejectAndProcess _ rid0 _ rid h0
    | checkSend rid0 =>
      have hne : rid0 ≠ rid := by
        intro hh
        subst hh
        simp [inflightFor] at hF
      cases res with
      | failed =>
        try dsimp only
        exact orph_rejectAndProcess _ rid0 _ rid h0
      | rep rep =>
        try dsimp only
        split
        next r heq2 =>
          refine orph_startCheckAndProcess _ rid0 rid hne ?_
          exact orph_transfer _ _ rid h0 (heapGet_heapSet_ne _ rid rid0 _ hne) rfl rfl
        next heq2 =>
          exact orph_andProcess _ [] rid h0 (fun o ho => absurd ho (List.not_mem_nil o))
      | outOk =>
        try dsimp only
        split
        next r heq2 =>
          refine orph_startCheckAndProcess _ rid0 rid hne ?_
          exact orph_transfer _ _ rid h0 (heapGet_heapSet_ne _ rid rid0 _ hne) rfl rfl
        next heq2 =>
          exact orph_andProcess _ [] rid h0 (fun o ho => absurd ho (List.not_mem_nil o))
    | recv rid0 result =>
      cases res with
      | failed =>
        try dsimp only
        exact orph_rejectAndProcess _ rid0 _ rid h0
      | rep rep =>
        try dsimp only
        exact orph_resolveAndProcess _ rid0 _ rid h0
      | outOk =>
        try dsimp only
        exact orph_resolveAndProcess _ rid0 _ rid h0

/-- Every engine step keeps `rid` orphaned and performs no USB transfer on
its behalf. -/
theorem orph_step (s : Eng) (i : Input) (rid : Nat) (h : Orphaned s rid) :
    KeepsOrphan rid (step s i) := by
  cases i with
  | openCall copt =>
    unfold step
    dsimp only
    split
    next =>
      refine ⟨h, ?_⟩
      intro o ho
      rw [List.mem_singleton] at ho
      subst ho
      rfl
    next =>
      exact ⟨orph_transfer s _ rid h rfl rfl rfl, fun o ho => absurd ho (List.not_mem_nil o)⟩
  | openSerial ser =>
    unfold step
    dsimp only
    split
    next =>
      refine ⟨orph_transfer s _ rid h rfl rfl rfl, ?_⟩
      intro o ho
      rw [List.mem_singleton] at ho
      subst ho
      rfl
    next => exact ⟨h, fun o ho => absurd ho (List.not_mem_nil o)⟩
  | openVersion v =>
    unfold step
    dsimp only
    split
    next =>
      exact ⟨orph_transfer s _ rid h rfl rfl rfl, fun o ho => absurd ho (List.not_mem_nil o)⟩
    next => exact ⟨h, fun o ho => absurd ho (List.not_mem_nil o)⟩
  | openDone =>
    unfold step
    dsimp only
    split
    next hop2 =>
      have h1 : Orphaned { s with maxActiveReqs := s.openOpts, resetAllReqs := true, dstate := DevState.opened } rid := orph_transfer s _ rid h rfl rfl rfl
      have hp := orph_process _ rid h1
      constructor
      · exact hp.1
      · intro o ho
        try dsimp only at ho
        rcases List.mem_cons.mp ho with ho | ho
        · subst ho
          rfl
        · rcases List.mem_append.mp ho with ho | ho
          · exact hp.2 o ho
          · rw [List.mem_singleton] at ho
            subst ho
            rfl
    next => exact ⟨h, fun o ho => absurd ho (List.not_mem_nil o)⟩
  | openFail =>
    unfold step
    dsimp only
    split
    next hop2 =>
      have hci := orph_closeInternal s (some ErrKind.usbErr) rid h
      constructor
      · exact hci.1
      · intro o ho
        dsimp only at ho
        rcases List.mem_append.mp ho with ho | ho
        · exact hci.2 o ho
        · rw [List.mem_singleton] at ho
          subst ho
          rfl
    next => exact ⟨h, fun o ho => absurd ho (List.not_mem_nil o)⟩
  | closeCall processPending timeoutArmed =>
    unfold step
    dsimp only
    split
    next =>
      refine ⟨h, ?_⟩
      intro o ho
      rw [List.mem_singleton] at ho
      subst ho
      rfl
    next hne =>
      split
      next hpp =>
        have hra := orph_rejectAllRequests s (ErrKind.stateErr "Device is being closed") rid h
        rcases hraa : rejectAllRequests s (ErrKind.stateErr "Device is being closed")
          with ⟨sa, os⟩
        rw [hraa] at hra
        dsimp only
        exact orph_andProcess _ os rid (orph_transfer sa _ rid hra.1 rfl rfl rfl) hra.2
      next =>
        split
        next hta =>
          exact orph_andProcess _ [] rid (orph_transfer s _ rid h rfl rfl rfl)
            (fun o ho => absurd ho (List.not_mem_nil o))
        next hta =>
          exact orph_andProcess _ [] rid (orph_transfer s _ rid h rfl rfl rfl)
            (fun o ho => absurd ho (List.not_mem_nil o))
  | closeTimerFire =>
    unfold step
    dsimp only
    split
    next hct =>
      have h1 : Orphaned { s with closeTimer := false } rid :=
        orph_transfer s _ rid h rfl rfl rfl
      have hra := orph_rejectAllRequests { s with closeTimer := false }
        (ErrKind.stateErr "Device is being closed") rid h1
      rcases hraa : rejectAllRequests { s with closeTimer := false }
        (ErrKind.stateErr "Device is being closed") with ⟨sa, os⟩
      rw [hraa] at hra
      dsimp only
      exact orph_andProcess _ os rid hra.1 hra.2
    next => exact ⟨h, fun o ho => absurd ho (List.not_mem_nil o)⟩
  | submit ty dataLen dataIsStr timeoutArmed =>
    unfold step
    dsimp only
    split
    next =>
      refine ⟨h, ?_⟩
      intro o ho
      rw [List.mem_singleton] at ho
      subst ho
      rfl
    next hne1 =>
      split
      next =>
        refine ⟨h, ?_⟩
        intro o ho
        rw [List.mem_singleton] at ho
        subst ho
        rfl
      next hne2 =>
        split
        next =>
          refine ⟨h, ?_⟩
          intro o ho
          rw [List.mem_singleton] at ho
          subst ho
          rfl
        next hne3 =>
          split
          next =>
            refine ⟨h, ?_⟩
            intro o ho
            rw [List.mem_singleton] at ho
            subst ho
            rfl
          next hne4 =>
            obtain ⟨⟨rr, hrr, hdd, hpp⟩, hQ, hF⟩ := h
            exact orph_andProcess _ [] rid
              ⟨⟨rr, heapGet_append_some s.heap _ rid rr hrr, hdd, hpp⟩, hQ, hF⟩
              (fun o ho => absurd ho (List.not_mem_nil o))
  | finish res => exact orph_finishStep s res rid h
  | reqTimerFire rid' =>
    unfold step
    dsimp only
    split
    next r heq =>
      split
      next hrt => exact orph_rejectAndProcess s rid' ErrKind.timeoutErr rid h
      next hrt => exact ⟨h, fun o ho => absurd ho (List.not_mem_nil o)⟩
    next => exact ⟨h, fun o ho => absurd ho (List.not_mem_nil o)⟩
  | checkTimerFire rid' =>
    unfold step
    dsimp only
    split
    next hmem =>
      exact orph_andProcess _ [] rid (orph_transfer s _ rid h rfl rfl rfl)
        (fun o ho => absurd ho (List.not_mem_nil o))
    next hmem => exact ⟨h, fun o ho => absurd ho (List.not_mem_nil o)⟩

/-- Orphanhood persists over any run: no later event can ever make the
engine perform a USB transfer for an orphaned request. -/
theorem orph_run (rid : Nat) (is : List Input) :
    ∀ s : Eng, Orphaned s rid →
    Orphaned (run s is).1 rid ∧ ∀ o ∈ (run s is).2, mentionsRid rid o = false := by
  induction is with
  | nil =>
    intro s h
    exact ⟨h, fun o ho => absurd ho (List.not_mem_nil o)⟩
  | cons i is ih =>
    intro s h
    have hs := orph_step s i rid h
    unfold run
    rcases hst : step s i with ⟨s1, os⟩
    rw [hst] at hs
    have hr := ih s1 hs.1
    dsimp only
    refine ⟨hr.1, ?_⟩
    intro o ho
    try dsimp only at ho
    rcases List.mem_append.mp ho with ho | ho
    · exact hs.2 o ho
    · exact hr.2 o ho

/-- **C5** (amended): a request whose armed timeout timer fires before its
INIT transfer is issued (it is live, has no protocol id, is not in the
reset queue and is not the in-flight operation) is rejected with
`TimeoutError`, and no USB transfer is ever performed on its behalf — not
in the rejecting step and not in any later step. (The claim's other half
fails: a timeout of 0 is falsy in `if (options.timeout)`, so it arms no
timer at all and the request proceeds to INIT normally, see the
counterexample.) -/
theorem c5_amended_pre_init_timeout (s : Eng) (rid : Nat) (r : Req)
    (hr : heapGet s.heap rid = some r) (ht : r.reqTimer = true) (hd : r.done = false)
    (hp : r.protoId = none) (hq : rid ∉ s.resetQueue)
    (hf : inflightFor rid s.inflight = false) :
    Output.completed rid (Outcome.errRep ErrKind.timeoutErr) ∈ (step s (Input.reqTimerFire rid)).2
    ∧ (∀ o ∈ (step s (Input.reqTimerFire rid)).2, mentionsRid rid o = false)
    ∧ ∀ is : List Input, ∀ o ∈ (run (step s (Input.reqTimerFire rid)).1 is).2,
        mentionsRid rid o = false := by
  have hnd : ¬ r.done = true := fun hh => Bool.noConfusion (hd ▸ hh)
  have hrr : rejectRequest s rid ErrKind.timeoutErr
      = (clearRequest s rid, [Output.completed rid (Outcome.errRep ErrKind.timeoutErr)]) := by
    unfold rejectRequest
    rw [hr]
    dsimp only
    rw [if_neg hnd, hp]
  have hstep : step s (Input.reqTimerFire rid)
      = andProcess (clearRequest s rid)
          [Output.completed rid (Outcome.errRep ErrKind.timeoutErr)] := by
    unfold step
    dsimp only
    rw [hr]
    dsimp only
    rw [if_pos ht, hrr]
  have hO : Orphaned (clearRequest s rid) rid := by
    unfold clearRequest
    rw [hr]
    dsimp only
    refine ⟨⟨{ r with reqTimer := false, done := true },
      heapGet_heapSet_self s.heap rid r _ hr, rfl, hp⟩, hq, hf⟩
  have hK := orph_andProcess (clearRequest s rid)
    [Output.completed rid (Outcome.errRep ErrKind.timeoutErr)] rid hO
    (fun o ho => by
      rw [List.mem_singleton] at ho
      subst ho
      rfl)
  refine ⟨?_, ?_, ?_⟩
  · rw [hstep]
    unfold andProcess
    rcases hpp : process (clearRequest s rid) with ⟨s3, os3⟩
    dsimp only
    exact List.mem_append_left _ (List.mem_singleton.mpr rfl)
  · rw [hstep]
    exact hK.2
  · intro is o ho
    rw [hstep] at ho
    exact (orph_run rid is _ hK.1).2 o ho

/-- Witness for the amended C5 theorem: in the concrete state `sC5`
(request 1 queued behind the in-flight open-time reset, timer armed), the
timer firing rejects request 1 with `TimeoutError` and no step — here
followed by an arbitrary continuation of the run — ever issues a USB
transfer for it. -/
theorem c5_amended_pre_init_timeout_witness :
    Output.completed 1 (Outcome.errRep ErrKind.timeoutErr) ∈ (step sC5 (Input.reqTimerFire 1)).2
    ∧ (∀ o ∈ (step sC5 (Input.reqTimerFire 1)).2, mentionsRid 1 o = false)
    ∧ ∀ is : List Input, ∀ o ∈ (run (step sC5 (Input.reqTimerFire 1)).1 is).2,
        mentionsRid 1 o = false :=
  c5_amended_pre_init_timeout sC5 1
    { rtype := 40, dataLen := none, dataIsStr := false, dataSent := false,
      protoId := none, checkCount := 0, reqTimer := true, done := false }
    (by decide) rfl rfl rfl (by decide) (by decide)

/-- Settlement counting distributes over list append. -/
theorem completedCount_append (rid : Nat) (a b : List Output) :
    completedCount rid (a ++ b) = completedCount rid a + completedCount rid b := by
  unfold completedCount
  rw [List.filter_append, List.length_append]

/-- The `closed` event emitted by `_close` settles no request. -/
theorem completedCount_ite_closed (rid : Nat) (c : Prop) (h : Decidable c) :
    completedCount rid (@ite _ c h [Output.closedEvent] []) = 0 := by
  rcases h with h | h
  · rfl
  · rfl

/-- Overwriting a heap slot with a record that inherits (or sets) the
`done` flag preserves `done`-ness of every request. -/
theorem doneIn_set (s : Eng) (rid rid' : Nat) (r' rnew : Req)
    (hget : heapGet s.heap rid' = some r') (hdone : r'.done = true → rnew.done = true)
    (h : doneIn s rid) :
    ∃ r2, heapGet (heapSet s.heap rid' rnew) rid = some r2 ∧ r2.done = true := by
  obtain ⟨r0, hr0, hd0⟩ := h
  by_cases hk : rid' = rid
  · subst hk
    refine ⟨rnew, heapGet_heapSet_self s.heap rid' r' rnew hget, ?_⟩
    apply hdone
    rw [hr0] at hget
    rw [← Option.some.inj hget]
    exact hd0
  · refine ⟨r0, ?_, hd0⟩
    rw [heapGet_heapSet_ne s.heap rid rid' rnew hk]
    exact hr0

/-- `_clearRequest` preserves the `done` flag of every request. -/
theorem doneIn_clearRequest (s : Eng) (rid rid' : Nat) (h : doneIn s rid) :
    doneIn (clearRequest s rid') rid := by
  unfold clearRequest
  rcases hg : heapGet s.heap rid' with _ | r
  · exact h
  · dsimp only
    exact doneIn_set s rid rid' r _ hg (fun _ => rfl) h

/-- `_clearRequest` marks a present request `done`. -/
theorem clearRequest_done (s : Eng) (rid : Nat) (r : Req)
    (hr : heapGet s.heap rid = some r) :
    doneIn (clearRequest s rid) rid := by
  unfold clearRequest
  rw [hr]
  dsimp only
  exact ⟨{ r with reqTimer := false, done := true },
    heapGet_heapSet_self s.heap rid r _ hr, rfl⟩

/-- `_startCheckTimer` preserves the `done` flag of every request. -/
theorem doneIn_startCheckTimer (s : Eng) (rid rid' : Nat) (h : doneIn s rid) :
    doneIn (startCheckTimer s rid') rid := by
  unfold startCheckTimer
  rcases hg : heapGet s.heap rid' with _ | r
  · exact h
  · dsimp only
    exact doneIn_set s rid rid' r _ hg (fun hh => hh) h

/-- A transition that emits nothing satisfies the at-most-once bound as
soon as it preserves `done`-ness. -/
theorem onceB_nil (s t : Eng) (rid : Nat) (himp : doneIn s rid → doneIn t rid) :
    OnceBound s (t, []) rid :=
  ⟨fun hd => ⟨himp hd, rfl⟩, Nat.zero_le 1, fun hpos => absurd hpos (Nat.lt_irrefl 0)⟩

/-- A transition whose only output settles nothing satisfies the
at-most-once bound as soon as it preserves `done`-ness. -/
theorem onceB_quiet (s t : Eng) (o : Output) (rid : Nat)
    (ho : completedCount rid [o] = 0) (himp : doneIn s rid → doneIn t rid) :
    OnceBound s (t, [o]) rid :=
  ⟨fun hd => ⟨himp hd, ho⟩, by rw [ho]; omega,
   fun hpos => absurd (ho ▸ hpos) (Nat.lt_irrefl 0)⟩

/-- Sequencing two transitions that each satisfy the at-most-once bound
satisfies it again: if the first transition settles the request it marks
it `done`, so the second settles it no further. -/
theorem onceB_seq (s t u : Eng) (os1 os2 : List Output) (rid : Nat)
    (h1 : OnceBound s (t, os1) rid) (h2 : OnceBound t (u, os2) rid) :
    OnceBound s (u, os1 ++ os2) rid := by
  obtain ⟨hA1, hB1, hC1⟩ := h1
  obtain ⟨hA2, hB2, hC2⟩ := h2
  refine ⟨?_, ?_, ?_⟩
  · intro hd
    obtain ⟨hd1, hz1⟩ := hA1 hd
    obtain ⟨hd2, hz2⟩ := hA2 hd1
    refine ⟨hd2, ?_⟩
    show completedCount rid (os1 ++ os2) = 0
    rw [completedCount_append, hz1, hz2]
  · show completedCount rid (os1 ++ os2) ≤ 1
    rw [completedCount_append]
    by_cases hz : completedCount rid os1 = 0
    · rw [hz]
      simpa using hB2
    · have h1p : 0 < completedCount rid os1 := Nat.pos_of_ne_zero hz
      have hz2 : completedCount rid os2 = 0 := (hA2 (hC1 h1p)).2
      have hb1 : completedCount rid os1 ≤ 1 := hB1
      omega
  · intro hpos
    rw [show completedCount rid (os1 ++ os2)
        = completedCount rid os1 + completedCount rid os2 from
      completedCount_append rid os1 os2] at hpos
    by_cases hz : completedCount rid os2 = 0
    · have h1p : 0 < completedCount rid os1 := by omega
      exact (hA2 (hC1 h1p)).1
    · exact hC2 (Nat.pos_of_ne_zero hz)

/-- `_rejectRequest` settles a request at most once: a `done` request is
untouched, a live one is settled exactly once and marked `done`. -/
theorem onceB_rejectRequest (s : Eng) (rid rid' : Nat) (e : ErrKind) :
    OnceBound s (rejectRequest s rid' e) rid := by
  unfold rejectRequest
  rcases hg : heapGet s.heap rid' with _ | r
  · exact onceB_nil s s rid id
  · dsimp only
    by_cases hd : r.done = true
    · rw [if_pos hd]
      exact onceB_nil s s rid id
    · rw [if_neg hd]
      try dsimp only
      refine ⟨?_, ?_, ?_⟩
      · intro hdin
        have hne : rid' ≠ rid := by
          intro hk
          subst hk
          obtain ⟨r0, hr0, hd0⟩ := hdin
          rw [hr0] at hg
          exact hd (Option.some.inj hg ▸ hd0)
        constructor
        · have h1 : doneIn (clearRequest s rid') rid := doneIn_clearRequest s rid rid' hdin
          obtain ⟨r2, hr2, hd2⟩ := h1
          rcases hp : r.protoId with _ | p
          · exact ⟨r2, hr2, hd2⟩
          · dsimp only
            split
            · exact ⟨r2, hr2, hd2⟩
            · exact ⟨r2, hr2, hd2⟩
        · show completedCount rid [Output.completed rid' (Outcome.errRep e)] = 0
          simp [completedCount, List.filter, hne]
      · show completedCount rid [Output.completed rid' (Outcome.errRep e)] ≤ 1
        by_cases hk : rid' = rid
        · simp [completedCount, List.filter, hk]
        · simp [completedCount, List.filter, hk]
      · intro hpos
        have hk : rid' = rid := by
          by_contra hk
          rw [show completedCount rid [Output.completed rid' (Outcome.errRep e)] = 0 by
            simp [completedCount, List.filter, hk]] at hpos
          exact Nat.lt_irrefl 0 hpos
        subst hk
        have h1 : doneIn (clearRequest s rid') rid' := clearRequest_done s rid' r hg
        obtain ⟨r2, hr2, hd2⟩ := h1
        rcases hp : r.protoId with _ | p
        · exact ⟨r2, hr2, hd2⟩
        · dsimp only
          split
          · exact ⟨r2, hr2, hd2⟩
          · exact ⟨r2, hr2, hd2⟩

/-- `_resolveRequest` settles a request at most once. -/
theorem onceB_resolveRequest (s : Eng) (rid rid' : Nat) (result : Int) :
    OnceBound s (resolveRequest s rid' result) rid := by
  unfold resolveRequest
  rcases hg : heapGet s.heap rid' with _ | r
  · exact onceB_nil s s rid id
  · dsimp only
    by_cases hd : r.done = true
    · rw [if_pos hd]
      exact onceB_nil s s rid id
    · rw [if_neg hd]
      try dsimp only
      split
      · exact onceB_nil s _ rid (fun hdin => doneIn_clearRequest s rid rid' hdin)
      · refine ⟨?_, ?_, ?_⟩
        · intro hdin
          have hne : rid' ≠ rid := by
            intro hk
            subst hk
            obtain ⟨r0, hr0, hd0⟩ := hdin
            rw [hr0] at hg
            exact hd (Option.some.inj hg ▸ hd0)
          refine ⟨doneIn_clearRequest s rid rid' hdin, ?_⟩
          show completedCount rid [Output.completed rid' (Outcome.okRep result)] = 0
          simp [completedCount, List.filter, hne]
        · show completedCount rid [Output.completed rid' (Outcome.okRep result)] ≤ 1
          by_cases hk : rid' = rid
          · simp [completedCount, List.filter, hk]
          · simp [completedCount, List.filter, hk]
        · intro hpos
          have hk : rid' = rid := by
            by_contra hk
            rw [show completedCount rid [Output.completed rid' (Outcome.okRep result)] = 0 by
              simp [completedCount, List.filter, hk]] at hpos
            exact Nat.lt_irrefl 0 hpos
          subst hk
          exact clearRequest_done s rid' r hg

/-- Weakening the origin of the at-most-once bound along `done`
preservation. -/
theorem onceB_pre (s0 sA : Eng) (p : Eng × List Output) (rid : Nat)
    (himp : doneIn s0 rid → doneIn sA rid) (h : OnceBound sA p rid) :
    OnceBound s0 p rid :=
  ⟨fun hd => h.1 (himp hd), h.2.1, h.2.2⟩

/-- The rejection fold of `_rejectAllRequests` preserves the at-most-once
bound. -/
theorem onceB_rejectAllFold (e : ErrKind) (rid : Nat) (ids : List Nat) :
    ∀ (s0 s : Eng) (outs : List Output), OnceBound s0 (s, outs) rid →
    OnceBound s0 (ids.foldl
      (fun acc rid' => ((rejectRequest acc.1 rid' e).1, acc.2 ++ (rejectRequest acc.1 rid' e).2))
      (s, outs)) rid := by
  induction ids with
  | nil =>
    intro s0 s outs h
    exact h
  | cons rid0 rest ih =>
    intro s0 s outs h
    rw [List.foldl_cons]
    exact ih s0 (rejectRequest s rid0 e).1 (outs ++ (rejectRequest s rid0 e).2)
      (onceB_seq s0 s (rejectRequest s rid0 e).1 outs (rejectRequest s rid0 e).2 rid h
        (onceB_rejectRequest s rid rid0 e))

/-- `_rejectAllRequests` settles each request at most once. -/
theorem onceB_rejectAllRequests (s : Eng) (e : ErrKind) (rid : Nat) :
    OnceBound s (rejectAllRequests s e) rid := by
  have hfold := onceB_rejectAllFold e rid s.reqsMap s s [] (onceB_nil s s rid id)
  obtain ⟨hA, hB, hC⟩ := hfold
  unfold rejectAllRequests
  dsimp only
  refine ⟨?_, ?_, ?_⟩
  · intro hd
    obtain ⟨hd1, hz⟩ := hA hd
    obtain ⟨r2, hr2, hd2⟩ := hd1
    refine ⟨?_, hz⟩
    split
    · exact ⟨r2, hr2, hd2⟩
    · exact ⟨r2, hr2, hd2⟩
  · exact hB
  · intro hpos
    obtain ⟨r2, hr2, hd2⟩ := hC hpos
    split
    · exact ⟨r2, hr2, hd2⟩
    · exact ⟨r2, hr2, hd2⟩

/-- `_close` settles each request at most once. -/
theorem onceB_closeInternal (s : Eng) (e : Option ErrKind) (rid : Nat) :
    OnceBound s (closeInternal s e) rid := by
  unfold closeInternal
  by_cases hm : s.reqsMap.isEmpty = true
  · rw [if_pos hm]
    dsimp only
    refine ⟨?_, ?_, ?_⟩
    · intro hd
      obtain ⟨r2, hr2, hd2⟩ := hd
      refine ⟨⟨r2, hr2, hd2⟩, ?_⟩
      show completedCount rid ([] ++ _) = 0
      rw [completedCount_append, completedCount_ite_closed]
      rfl
    · show completedCount rid ([] ++ _) ≤ 1
      rw [completedCount_append, completedCount_ite_closed]
      have h00 : completedCount rid [] = 0 := rfl
      omega
    · intro hpos
      rw [show completedCount rid ([] ++ @ite _ _ _ [Output.closedEvent] [])
          = 0 from by rw [completedCount_append, completedCount_ite_closed]; rfl] at hpos
      exact absurd hpos (Nat.lt_irrefl 0)
  · rw [if_neg hm]
    have hra := onceB_rejectAllRequests s (e.getD (ErrKind.stateErr "Device has been closed")) rid
    rcases hrr : rejectAllRequests s (e.getD (ErrKind.stateErr "Device has been closed"))
      with ⟨s1, outs⟩
    rw [hrr] at hra
    obtain ⟨hA, hB, hC⟩ := hra
    dsimp only
    refine ⟨?_, ?_, ?_⟩
    · intro hd
      obtain ⟨hd1, hz⟩ := hA hd
      obtain ⟨r2, hr2, hd2⟩ := hd1
      have hz' : completedCount rid outs = 0 := hz
      refine ⟨⟨r2, hr2, hd2⟩, ?_⟩
      show completedCount rid (outs ++ _) = 0
      rw [completedCount_append, completedCount_ite_closed, hz']
    · have hb : completedCount rid outs ≤ 1 := hB
      show completedCount rid (outs ++ _) ≤ 1
      rw [completedCount_append, completedCount_ite_closed]
      omega
    · intro hpos
      rw [show completedCount rid (outs ++ @ite _ _ _ [Output.closedEvent] [])
          = completedCount rid outs from by
        rw [completedCount_append, completedCount_ite_closed]; rfl] at hpos
      obtain ⟨r2, hr2, hd2⟩ := hC hpos
      exact ⟨r2, hr2, hd2⟩

/-- The close check at the tail of `_process` settles each request at
most once. -/
theorem onceB_closeCheck (s : Eng) (rid : Nat) : OnceBound s (closeCheck s) rid := by
  unfold closeCheck
  split
  · exact onceB_closeInternal s none rid
  · exact onceB_nil s s rid id

/-- `_process` settles each request at most once (the only settlements it
can produce come from the close path). -/
theorem onceB_process (s : Eng) (rid : Nat) : OnceBound s (process s) rid := by
  unfold process
  split
  next => exact onceB_nil s s rid id
  next =>
    dsimp only
    split
    next =>
      split
      next => exact onceB_quiet s _ _ rid rfl id
      next =>
        split
        next rid' rest heq =>
          try dsimp only
          exact onceB_quiet s _ _ rid rfl id
        next heq =>
          split
          next cq rid' heq2 =>
            try dsimp only
            exact onceB_quiet s _ _ rid rfl id
          next cq heq2 =>
            try dsimp only
            split
            next => exact onceB_pre s _ _ rid (by exact fun hd => hd) (onceB_closeCheck _ rid)
            next =>
              split
              next rq rid' heq3 =>
                split
                next r heq4 =>
                  try dsimp only
                  exact onceB_quiet s _ _ rid rfl id
                next heq4 => exact onceB_pre s _ _ rid (by exact fun hd => hd) (onceB_closeCheck _ rid)
              next rq heq3 => exact onceB_pre s _ _ rid (by exact fun hd => hd) (onceB_closeCheck _ rid)
    next =>
      split
      next => exact onceB_quiet s _ _ rid rfl id
      next =>
        split
        next rid' rest heq =>
          try dsimp only
          exact onceB_quiet s _ _ rid rfl id
        next heq =>
          split
          next cq rid' heq2 =>
            try dsimp only
            exact onceB_quiet s _ _ rid rfl id
          next cq heq2 =>
            try dsimp only
            split
            next => exact onceB_pre s _ _ rid (by exact fun hd => hd) (onceB_closeCheck _ rid)
            next =>
              split
              next rq rid' heq3 =>
                split
                next r heq4 =>
                  try dsimp only
                  exact onceB_quiet s _ _ rid rfl id
                next heq4 => exact onceB_pre s _ _ rid (by exact fun hd => hd) (onceB_closeCheck _ rid)
              next rq heq3 => exact onceB_pre s _ _ rid (by exact fun hd => hd) (onceB_closeCheck _ rid)

/-- Re-entering `_process` after an event preserves the at-most-once
bound. -/
theorem onceB_andProcess (s0 x : Eng) (outs : List Output) (rid : Nat)
    (h : OnceBound s0 (x, outs) rid) :
    OnceBound s0 (andProcess x outs) rid := by
  have hp := onceB_process x rid
  unfold andProcess
  rcases hpr : process x with ⟨s', os'⟩
  rw [hpr] at hp
  dsimp only
  exact onceB_seq s0 x s' outs os' rid h hp

/-- Rejecting any request and re-processing settles each request at most
once. -/
theorem onceB_rejectAndProcess (x : Eng) (rid' : Nat) (e : ErrKind) (rid : Nat) :
    OnceBound x (match rejectRequest x rid' e with | (s, os) => andProcess s os) rid := by
  have hr := onceB_rejectRequest x rid rid' e
  rcases hrr : rejectRequest x rid' e with ⟨s1, os1⟩
  rw [hrr] at hr
  dsimp only
  exact onceB_andProcess x s1 os1 rid hr

/-- Resolving any request and re-processing settles each request at most
once. -/
theorem onceB_resolveAndProcess (x : Eng) (rid' : Nat) (result : Int) (rid : Nat) :
    OnceBound x (match resolveRequest x rid' result with | (s, os) => andProcess s os) rid := by
  have hr := onceB_resolveRequest x rid rid' result
  rcases hrr : resolveRequest x rid' result with ⟨s1, os1⟩
  rw [hrr] at hr
  dsimp only
  exact onceB_andProcess x s1 os1 rid hr

/-- The INIT continuation settles each request at most once. -/
theorem onceB_initCont (s0 : Eng) (rid0 : Nat) (rep : ServiceReply) (rid : Nat) :
    OnceBound s0 (initCont s0 rid0 rep) rid := by
  obtain ⟨st, pid, sz, res⟩ := rep
  unfold initCont
  split
  next => exact onceB_andProcess s0 s0 [] rid (onceB_nil s0 s0 rid id)
  next r0 heq =>
    cases st with
    | ok =>
      dsimp only
      rw [if_pos (Or.inl rfl : ProtoStatus.ok = ProtoStatus.ok
            ∨ ProtoStatus.ok = ProtoStatus.pending),
          if_pos (Or.inl rfl : ProtoStatus.ok = ProtoStatus.ok
            ∨ ProtoStatus.ok = ProtoStatus.pending)]
      split
      next =>
        exact onceB_quiet s0 _ _ rid rfl
          (by exact fun hd => doneIn_set s0 rid rid0 r0 _ heq (fun hh => hh) hd)
      next =>
        refine onceB_andProcess s0 _ [] rid (onceB_nil s0 _ rid ?_)
        intro hd
        have h1 := doneIn_set s0 rid rid0 r0 { r0 with protoId := some pid } heq
          (fun hh => hh) hd
        exact doneIn_startCheckTimer _ rid rid0
          (doneIn_set _ rid rid0 { r0 with protoId := some pid } _
            (heapGet_heapSet_self s0.heap rid0 r0 _ heq) (fun hh => hh) h1)
    | pending =>
      dsimp only
      rw [if_pos (Or.inr rfl : ProtoStatus.pending = ProtoStatus.ok
            ∨ ProtoStatus.pending = ProtoStatus.pending),
          if_pos (Or.inr rfl : ProtoStatus.pending = ProtoStatus.ok
            ∨ ProtoStatus.pending = ProtoStatus.pending)]
      split
      next =>
        exact onceB_pre s0 _ _ rid
          (by exact fun hd => doneIn_set s0 rid rid0 r0 _ heq (fun hh => hh) hd)
          (onceB_rejectAndProcess _ rid0 _ rid)
      next =>
        refine onceB_andProcess s0 _ [] rid (onceB_nil s0 _ rid ?_)
        intro hd
        exact doneIn_startCheckTimer _ rid rid0
          (doneIn_set s0 rid rid0 r0 _ heq (fun hh => hh) hd)
    | busy =>
      dsimp only
      exact onceB_andProcess s0 _ [] rid (onceB_nil s0 _ rid (by exact fun hd => hd))
    | noMemory =>
      dsimp only
      exact onceB_rejectAndProcess s0 rid0 _ rid
    | notFound =>
      dsimp only
      exact onceB_rejectAndProcess s0 rid0 _ rid
    | other code =>
      dsimp only
      exact onceB_rejectAndProcess s0 rid0 _ rid

/-- The CHECK continuation settles each request at most once. -/
theorem onceB_checkCont (s0 : Eng) (rid0 : Nat) (rep : ServiceReply) (rid : Nat) :
    OnceBound s0 (checkCont s0 rid0 rep) rid := by
  unfold checkCont
  split
  next => exact onceB_andProcess s0 s0 [] rid (onceB_nil s0 s0 rid id)
  next r heq =>
    split
    · split
      next =>
        split
        next => exact onceB_quiet s0 _ _ rid rfl (by exact fun hd => hd)
        next => exact onceB_resolveAndProcess s0 rid0 _ rid
      next => exact onceB_quiet s0 _ _ rid rfl (by exact fun hd => hd)
    · refine onceB_andProcess s0 _ [] rid (onceB_nil s0 _ rid ?_)
      intro hd
      exact doneIn_startCheckTimer s0 rid rid0 hd
    · exact onceB_rejectAndProcess s0 rid0 _ rid
    · exact onceB_rejectAndProcess s0 rid0 _ rid
    · exact onceB_rejectAndProcess s0 rid0 _ rid

/-- Completing the in-flight transfer settles each request at most
once. -/
theorem onceB_finishStep (s : Eng) (res : XferResult) (rid : Nat) :
    OnceBound s (finishStep s res) rid := by
  unfold finishStep
  split
  next => exact onceB_nil s s rid id
  next fl hfl =>
    cases fl with
    | resetAll =>
      try dsimp only
      exact onceB_andProcess s _ [] rid (onceB_nil s _ rid (by exact fun hd => hd))
    | resetOne rid0 =>
      try dsimp only
      exact onceB_andProcess s _ [] rid (onceB_nil s _ rid (by exact fun hd => hd))
    | init rid0 =>
      cases res with
      | rep rep =>
        try dsimp only
        exact onceB_pre s _ _ rid (by exact fun hd => hd) (onceB_initCont _ rid0 rep rid)
      | outOk =>
        try dsimp only
        exact onceB_pre s _ _ rid (by exact fun hd => hd) (onceB_rejectAndProcess _ rid0 _ rid)
      | failed =>
        try dsimp only
        exact onceB_pre s _ _ rid (by exact fun hd => hd) (onceB_rejectAndProcess _ rid0 _ rid)
    | initSend rid0 =>
      cases res with
      | failed =>
        try dsimp only
        exact onceB_pre s _ _ rid (by exact fun hd => hd) (onceB_rejectAndProcess _ rid0 _ rid)
      | rep rep =>
        try dsimp only
        split
        next r heq2 =>
          refine onceB_andProcess s _ [] rid (onceB_nil s _ rid ?_)
          intro hd
          exact doneIn_startCheckTimer _ rid rid0
            (doneIn_set s rid rid0 r _ heq2 (fun hh => hh) hd)
        next heq2 =>
          exact onceB_andProcess s _ [] rid (onceB_nil s _ rid (by exact fun hd => hd))
      | outOk =>
        try dsimp only
        split
        next r heq2 =>
          refine onceB_andProcess s _ [] rid (onceB_nil s _ rid ?_)
          intro hd
          exact doneIn_startCheckTimer _ rid rid0
            (doneIn_set s rid rid0 r _ heq2 (fun hh => hh) hd)
        next heq2 =>
          exact onceB_andProcess s _ [] rid (onceB_nil s _ rid (by exact fun hd => hd))
    | check rid0 =>
      cases res with
      | rep rep =>
        try dsimp only
        exact onceB_pre s _ _ rid (by exact fun hd => hd) (onceB_checkCont _ rid0 rep rid)
      | outOk =>
        try dsimp only
        exact onceB_pre s _ _ rid (by exact fun hd => hd) (onceB_rejectAndProcess _ rid0 _ rid)
      | failed =>
        try dsimp only
        exact onceB_pre s _ _ rid (by exact fun hd => hd) (onceB_rejectAndProcess _ rid0 _ rid)
    | checkSend rid0 =>
      cases res with
      | failed =>
        try dsimp only
        exact onceB_pre s _ _ rid (by exact fun hd => hd) (onceB_rejectAndProcess _ rid0 _ rid)
      | rep rep =>
        try dsimp only
        split
        next r heq2 =>
          refine onceB_andProcess s _ [] rid (onceB_nil s _ rid ?_)
          intro hd
          exact doneIn_startCheckTimer _ rid rid0
            (doneIn_set s rid rid0 r _ heq2 (fun hh => hh) hd)
        next heq2 =>
          exact onceB_andProcess s _ [] rid (onceB_nil s _ rid (by exact fun hd => hd))
      | outOk =>
        try dsimp only
        split
        next r heq2 =>
          refine onceB_andProcess s _ [] rid (onceB_nil s _ rid ?_)
          intro hd
          exact doneIn_startCheckTimer _ rid rid0
            (doneIn_set s rid rid0 r _ heq2 (fun hh => hh) hd)
        next heq2 =>
          exact onceB_andProcess s _ [] rid (onceB_nil s _ rid (by exact fun hd => hd))
    | recv rid0 result =>
      cases res with
      | failed =>
        try dsimp only
        exact onceB_pre s _ _ rid (by exact fun hd => hd) (onceB_rejectAndProcess _ rid0 _ rid)
      | rep rep =>
        try dsimp only
        exact onceB_pre s _ _ rid (by exact fun hd => hd) (onceB_resolveAndProcess _ rid0 _ rid)
      | outOk =>
        try dsimp only
        exact onceB_pre s _ _ rid (by exact fun hd => hd) (onceB_resolveAndProcess _ rid0 _ rid)

/-- The events wrapping `open()`'s completion settle no request
themselves. -/
theorem completedCount_wrap (rid : Nat) (l : List Output) :
    completedCount rid (Output.openEvent :: (l ++ [Output.openResolved]))
      = completedCount rid l := by
  show completedCount rid (l ++ [Output.openResolved]) = completedCount rid l
  rw [completedCount_append]
  rfl

/-- Every engine step settles each request at most once, and settling a
request marks it `done` forever. -/
theorem onceB_step (s : Eng) (i : Input) (rid : Nat) : OnceBound s (step s i) rid := by
  cases i with
  | openCall copt =>
    unfold step
    dsimp only
    split
    next => exact onceB_quiet s s _ rid rfl id
    next => exact onceB_nil s _ rid (by exact fun hd => hd)
  | openSerial ser =>
    unfold step
    dsimp only
    split
    next => exact onceB_quiet s _ _ rid rfl (by exact fun hd => hd)
    next => exact onceB_nil s s rid id
  | openVersion v =>
    unfold step
    dsimp only
    split
    next => exact onceB_nil s _ rid (by exact fun hd => hd)
    next => exact onceB_nil s s rid id
  | openDone =>
    unfold step
    dsimp only
    split
    next hop2 =>
      have hp := onceB_process { s with maxActiveReqs := s.openOpts, resetAllReqs := true, dstate := DevState.opened } rid
      obtain ⟨hA, hB, hC⟩ := hp
      refine ⟨?_, ?_, ?_⟩
      · intro hd
        obtain ⟨hd1, hz⟩ := hA hd
        refine ⟨hd1, ?_⟩
        rw [completedCount_wrap]
        exact hz
      · rw [completedCount_wrap]
        exact hB
      · intro hpos
        rw [completedCount_wrap] at hpos
        exact hC hpos
    next => exact onceB_nil s s rid id
  | openFail =>
    unfold step
    dsimp only
    split
    next hop2 =>
      have hci := onceB_closeInternal s (some ErrKind.usbErr) rid
      rcases hcc : closeInternal s (some ErrKind.usbErr) with ⟨s1, outs⟩
      rw [hcc] at hci
      obtain ⟨hA, hB, hC⟩ := hci
      dsimp only
      have h0 : completedCount rid [Output.openRejected] = 0 := rfl
      refine ⟨?_, ?_, ?_⟩
      · intro hd
        obtain ⟨hd1, hz⟩ := hA hd
        have hz' : completedCount rid outs = 0 := hz
        refine ⟨hd1, ?_⟩
        rw [completedCount_append, hz', h0]
      · have hb : completedCount rid outs ≤ 1 := hB
        rw [completedCount_append, h0]
        omega
      · intro hpos
        rw [completedCount_append, h0] at hpos
        have hc2 : 0 < completedCount rid outs := by omega
        exact hC hc2
    next => exact onceB_nil s s rid id
  | closeCall processPending timeoutArmed =>
    unfold step
    dsimp only
    split
    next => exact onceB_quiet s s _ rid rfl id
    next hne =>
      split
      next hpp =>
        have hra := onceB_rejectAllRequests s (ErrKind.stateErr "Device is being closed") rid
        rcases hraa : rejectAllRequests s (ErrKind.stateErr "Device is being closed")
          with ⟨sa, os⟩
        rw [hraa] at hra
        dsimp only
        refine onceB_andProcess s _ os rid ?_
        exact ⟨fun hd => ⟨(hra.1 hd).1, (hra.1 hd).2⟩, hra.2.1, hra.2.2⟩
      next =>
        split
        next hta =>
          exact onceB_andProcess s _ [] rid (onceB_nil s _ rid (by exact fun hd => hd))
        next hta =>
          exact onceB_andProcess s _ [] rid (onceB_nil s _ rid (by exact fun hd => hd))
  | closeTimerFire =>
    unfold step
    dsimp only
    split
    next hct =>
      have hra := onceB_rejectAllRequests { s with closeTimer := false }
        (ErrKind.stateErr "Device is being closed") rid
      rcases hraa : rejectAllRequests { s with closeTimer := false }
        (ErrKind.stateErr "Device is being closed") with ⟨sa, os⟩
      rw [hraa] at hra
      dsimp only
      refine onceB_andProcess s sa os rid ?_
      exact ⟨fun hd => ⟨(hra.1 hd).1, (hra.1 hd).2⟩, hra.2.1, hra.2.2⟩
    next => exact onceB_nil s s rid id
  | submit ty dataLen dataIsStr timeoutArmed =>
    unfold step
    dsimp only
    split
    next => exact onceB_quiet s s _ rid rfl id
    next hne1 =>
      split
      next => exact onceB_quiet s s _ rid rfl id
      next hne2 =>
        split
        next => exact onceB_quiet s s _ rid rfl id
        next hne3 =>
          split
          next => exact onceB_quiet s s _ rid rfl id
          next hne4 =>
            refine onceB_andProcess s _ [] rid (onceB_nil s _ rid ?_)
            intro hd
            obtain ⟨r2, hr2, hd2⟩ := hd
            exact ⟨r2, heapGet_append_some s.heap _ rid r2 hr2, hd2⟩
  | finish res => exact onceB_finishStep s res rid
  | reqTimerFire rid' =>
    unfold step
    dsimp only
    split
    next r heq =>
      split
      next hrt => exact onceB_rejectAndProcess s rid' ErrKind.timeoutErr rid
      next hrt => exact onceB_nil s s rid id
    next => exact onceB_nil s s rid id
  | checkTimerFire rid' =>
    unfold step
    dsimp only
    split
    next hmem =>
      exact onceB_andProcess s _ [] rid (onceB_nil s _ rid (by exact fun hd => hd))
    next hmem => exact onceB_nil s s rid id

/-- Over any run, each request is settled at most once. -/
theorem onceB_run (rid : Nat) (is : List Input) :
    ∀ s : Eng, OnceBound s (run s is) rid := by
  induction is with
  | nil =>
    intro s
    exact onceB_nil s s rid id
  | cons i is ih =>
    intro s
    have hs := onceB_step s i rid
    unfold run
    rcases hst : step s i with ⟨s1, os⟩
    rw [hst] at hs
    have hr := ih s1
    dsimp only
    exact onceB_seq s s1 (run s1 is).1 os (run s1 is).2 rid hs hr

/-- **C9**: a request is completed at most once. Once its `done` flag is
set, `_rejectRequest` and `_resolveRequest` return immediately without
changing the engine state or delivering a settlement, so over any event
sequence from a fresh handle each request id receives at most one
caller-visible settlement. -/
theorem c9_completion_at_most_once (info : DeviceInfo) (rid : Nat) (is : List Input) :
    (∀ (s : Eng) (e : ErrKind) (result : Int), doneIn s rid →
      rejectRequest s rid e = (s, []) ∧ resolveRequest s rid result = (s, []))
    ∧ completedCount rid (run (mkDevice info) is).2 ≤ 1 := by
  constructor
  · intro s e result hd
    obtain ⟨r, hr, hdone⟩ := hd
    constructor
    · unfold rejectRequest
      rw [hr]
      dsimp only
      rw [if_pos hdone]
    · unfold resolveRequest
      rw [hr]
      dsimp only
      rw [if_pos hdone]
  · exact (onceB_run rid is (mkDevice info)).2.1

/-- Witness for C9: along the concrete successful request interaction
(open, INIT, poll, resolve) request 1 is settled exactly once — the bound
from the theorem is met and attained. -/
theorem c9_completion_at_most_once_witness :
    ((∀ (s : Eng) (e : ErrKind) (result : Int), doneIn s 1 →
      rejectRequest s 1 e = (s, []) ∧ resolveRequest s 1 result = (s, []))
    ∧ completedCount 1 (run (mkDevice info0) (openTrace ++ c3Trace)).2 ≤ 1)
    ∧ completedCount 1 (run (mkDevice info0) (openTrace ++ c3Trace)).2 = 1 :=
  ⟨c9_completion_at_most_once info0 1 (openTrace ++ c3Trace), by decide⟩

/-- **C3** (amended): slot release via RESET happens exactly for rejected
requests holding a truthy (non-zero) protocol id — `_rejectRequest`
appends such a request to the reset queue and the next unblocked
`_process` pass issues the per-slot RESET OUT transfer (or the global
reset-all when `_resetAllReqs` is raised); `_resolveRequest`, by contrast,
performs no transfer and leaves the reset queue unchanged, so a request
that resolves successfully never has its device-side slot released by a
RESET on its behalf. -/
theorem c3_amended_slot_release :
    (∀ (s : Eng) (rid : Nat) (r : Req) (p : Nat) (e : ErrKind),
      heapGet s.heap rid = some r → r.done = false → r.protoId = some p → p ≠ 0 →
      (rejectRequest s rid e).1.resetQueue = s.resetQueue ++ [rid]
      ∧ (rejectRequest s rid e).2 = [Output.completed rid (Outcome.errRep e)])
    ∧ (∀ (s : Eng) (rid : Nat) (r : Req) (result : Int),
      heapGet s.heap rid = some r → r.done = false →
      (resolveRequest s rid result).1.resetQueue = s.resetQueue
      ∧ ∀ o ∈ (resolveRequest s rid result).2, isResetOutput o = false)
    ∧ (∀ (s : Eng) (rid : Nat) (r : Req) (p : Nat) (rest : List Nat),
      s.busy = false → s.dstate = DevState.opened → s.wantClose = false →
      s.resetAllReqs = false → s.resetQueue = rid :: rest →
      heapGet s.heap rid = some r → r.protoId = some p →
      (process s).2 = [Output.xfer (Transfer.reset rid p)]
      ∧ (process s).1.resetQueue = rest)
    ∧ (∀ s : Eng,
      s.busy = false → s.dstate = DevState.opened → s.resetAllReqs = true →
      (process s).2 = [Output.xfer Transfer.resetAll]) := by
  refine ⟨?_, ?_, ?_, ?_⟩
  · intro s rid r p e hr hd hp hpz
    have hcq : (clearRequest s rid).resetQueue = s.resetQueue := by
      unfold clearRequest
      rw [hr]
    have hre : rejectRequest s rid e
        = ({ clearRequest s rid with
              resetQueue := (clearRequest s rid).resetQueue ++ [rid] },
           [Output.completed rid (Outcome.errRep e)]) := by
      unfold rejectRequest
      rw [hr]
      dsimp only
      rw [if_neg (fun hh => Bool.noConfusion (hd ▸ hh)), hp]
      dsimp only
      rw [if_pos hpz]
    rw [hre]
    refine ⟨?_, rfl⟩
    show (clearRequest s rid).resetQueue ++ [rid] = s.resetQueue ++ [rid]
    rw [hcq]
  · intro s rid r result hr hd
    have hcq : (clearRequest s rid).resetQueue = s.resetQueue := by
      unfold clearRequest
      rw [hr]
    unfold resolveRequest
    rw [hr]
    dsimp only
    rw [if_neg (fun hh => Bool.noConfusion (hd ▸ hh))]
    try dsimp only
    split
    · exact ⟨hcq, fun o ho => absurd ho (List.not_mem_nil o)⟩
    · refine ⟨hcq, ?_⟩
      intro o ho
      rw [List.mem_singleton] at ho
      subst ho
      rfl
  · intro s rid r p rest hb hds hwc hra hq hr hp
    have hc1 : ¬(s.dstate = DevState.closed ∨ s.dstate = DevState.opening ∨ s.busy = true) := by
      rw [hds, hb]
      simp
    unfold process
    rw [if_neg hc1]
    dsimp only
    rw [if_neg (show ¬(s.wantClose = true ∧ s.dstate ≠ DevState.closing) from
      fun hh => Bool.noConfusion (hwc ▸ hh.1))]
    rw [if_neg (show ¬(s.resetAllReqs = true) from fun hh => Bool.noConfusion (hra ▸ hh)), hq]
    try dsimp only
    rw [hr]
    try dsimp only
    rw [Option.some_bind, hp, Option.getD_some]
    exact ⟨rfl, rfl⟩
  · intro s hb hds hra
    have hc1 : ¬(s.dstate = DevState.closed ∨ s.dstate = DevState.opening ∨ s.busy = true) := by
      rw [hds, hb]
      simp
    have hnc : s.dstate ≠ DevState.closing := by
      rw [hds]
      exact fun hh => DevState.noConfusion hh
    unfold process
    rw [if_neg hc1]
    dsimp only
    by_cases hw : s.wantClose = true
    · rw [if_pos (show s.wantClose = true ∧ s.dstate ≠ DevState.closing from ⟨hw, hnc⟩)]
      dsimp only
      rw [if_pos hra]
    · rw [if_neg (show ¬(s.wantClose = true ∧ s.dstate ≠ DevState.closing) from
        fun hh => hw hh.1)]
      rw [if_pos (show s.resetAllReqs = true from hra)]

/-- Witness for the amended C3 theorem at concrete states: rejecting live
request 1 (protocol id 7) in `sBusyInit` queues its RESET and settles it;
resolving it instead leaves the reset queue empty with no reset output;
an idle `_process` pass issues `reset 1 7` from the pending reset queue,
and the global reset when the reset-all flag is up. -/
theorem c3_amended_slot_release_witness :
    ((rejectRequest sBusyInit 1 ErrKind.timeoutErr).1.resetQueue = sBusyInit.resetQueue ++ [1]
      ∧ (rejectRequest sBusyInit 1 ErrKind.timeoutErr).2
          = [Output.completed 1 (Outcome.errRep ErrKind.timeoutErr)])
    ∧ ((resolveRequest sBusyInit 1 5).1.resetQueue = sBusyInit.resetQueue
      ∧ ∀ o ∈ (resolveRequest sBusyInit 1 5).2, isResetOutput o = false)
    ∧ ((process sResetPending).2 = [Output.xfer (Transfer.reset 1 7)]
      ∧ (process sResetPending).1.resetQueue = [])
    ∧ (process sResetAllPending).2 = [Output.xfer Transfer.resetAll] :=
  ⟨c3_amended_slot_release.1 sBusyInit 1
      { rtype := 40, dataLen := none, dataIsStr := false, dataSent := true,
        protoId := some 7, checkCount := 1, reqTimer := true, done := false }
      7 ErrKind.timeoutErr (by decide) rfl rfl (by decide),
   c3_amended_slot_release.2.1 sBusyInit 1
      { rtype := 40, dataLen := none, dataIsStr := false, dataSent := true,
        protoId := some 7, checkCount := 1, reqTimer := true, done := false }
      5 (by decide) rfl,
   c3_amended_slot_release.2.2.1 sResetPending 1
      { rtype := 40, dataLen := none, dataIsStr := false, dataSent := true,
        protoId := some 7, checkCount := 0, reqTimer := false, done := true }
      7 [] (by decide) (by decide) (by decide) (by decide) (by decide) (by decide) rfl,
   c3_amended_slot_release.2.2.2 sResetAllPending (by decide) (by decide) (by decide)⟩
